import Mathlib

/-!
The proxy of skipper: a shallow embedding of `proxy.go`

The request-handling core of the proxy is embedded as pure Lean functions:

* Go maps (`http.Header`) are association lists whose list order is the order in
  which `range` visits the entries;
* readers, writers, the settings source, `http.NewRequest` and the transport are
  oracles: functions giving the result of each call;
* a panic is an explicit result value, and the actions of the proxy are recorded in
  a trace of events;
* the loop of `copyStream` runs on fuel, and the blocking channel receive of
  `ServeHTTP` is an explicit outcome.
-/

namespace Proxy

/-! ## Constants and errors -/

def defaultSettingsBufferSize : Nat := 32

def proxyBufferSize : Nat := 8192

/-- Go `error` values that are not nil: the distinguished `io.EOF` and every other
error, identified by its message. -/
inductive GoError where
  | EOF
  | err (msg : String)
  deriving DecidableEq, Repr

/-- The function `proxyError`: `fmt.Errorf(proxyErrorFmt, m)` with
`proxyErrorFmt = "proxy: %s"`. -/
def proxyError (m : String) : GoError :=
  GoError.err ("proxy: " ++ m)

/-! ## Headers -/

/-- The byte test `validHeaderFieldByte` of `net/textproto`: the token characters of
RFC 7230. -/
def validHeaderFieldByte (c : Char) : Bool :=
  c.isAlphanum || "!#$%&*+-.^_|~".toList.contains c || c == Char.ofNat 39 || c == Char.ofNat 96

/-- The canonicalisation loop of `net/textproto`: upper case for the first letter and
for a letter after a hyphen, lower case for every other letter. -/
def canonicalLoop : Bool → List Char → List Char
  | _, [] => []
  | upper, c :: cs =>
    let c1 := if upper && c.isLower then c.toUpper
              else if !upper && c.isUpper then c.toLower
              else c
    c1 :: canonicalLoop (c1 == Char.ofNat 45) cs

/-- The function `http.CanonicalHeaderKey` of the Go standard library: a key holding
a byte that is not a token character is returned unchanged, every other key is put
in canonical form. -/
def CanonicalHeaderKey (s : String) : String :=
  if s.toList.all validHeaderFieldByte then String.mk (canonicalLoop true s.toList) else s

/-- A Go map from strings to `V`. The entries are listed in the order in which a
`range` loop visits them; a well-formed map has no key twice. -/
abbrev GoMap (V : Type) := List (String × V)

/-- The map read `m[k]`. -/
def GoMap.get {V : Type} (m : GoMap V) (k : String) : Option V :=
  (m.find? (fun e => e.1 == k)).map Prod.snd

/-- The map assignment `m[k] = v`: the value of an existing key is replaced, a new
key is added. -/
def GoMap.set {V : Type} : GoMap V → String → V → GoMap V
  | [], k, v => [(k, v)]
  | (k1, v1) :: m, k, v => if k1 = k then (k, v) :: m else (k1, v1) :: GoMap.set m k v

/-- The map deletion `delete(m, k)`. -/
def GoMap.delete {V : Type} (m : GoMap V) (k : String) : GoMap V :=
  m.filter (fun e => !(e.1 == k))

/-- The keys of a map, in iteration order. -/
def GoMap.keys {V : Type} (m : GoMap V) : List String :=
  m.map Prod.fst

/-- The function `copyHeader`:
`for k, v := range from { to[http.CanonicalHeaderKey(k)] = v }`, with `dst` for
`to` and `src` for `from`. The value `v` is assigned as it is: for `http.Header` it
is a slice, so that the assignment copies the slice header and not the elements. -/
def copyHeader {V : Type} (dst src : GoMap V) : GoMap V :=
  src.foldl (fun acc e => GoMap.set acc (CanonicalHeaderKey e.1) e.2) dst

/-- The function `cloneHeader`: `hh := make(http.Header); copyHeader(hh, h)`. -/
def cloneHeader {V : Type} (h : GoMap V) : GoMap V :=
  copyHeader [] h

/-- A header collection with its value lists held by value. -/
abbrev Header := GoMap (List String)

/-- The header collection `c` contains every key/value pair of `h` under
case-insensitive key equality: every value that `h` holds for a key is among the
values that `c` holds for the canonical form of the key. -/
def containsAll (h c : Header) : Prop :=
  ∀ k ∈ GoMap.keys h, ∀ v ∈ (GoMap.get h k).getD [],
    v ∈ (GoMap.get c (CanonicalHeaderKey k)).getD []

instance (h c : Header) : Decidable (containsAll h c) := by
  unfold containsAll
  exact inferInstance

/-- No two keys of the map have the same canonical form. -/
def canonicalDistinct {V : Type} (h : GoMap V) : Prop :=
  ∀ k1 ∈ GoMap.keys h, ∀ k2 ∈ GoMap.keys h,
    CanonicalHeaderKey k1 = CanonicalHeaderKey k2 → k1 = k2

instance {V : Type} (h : GoMap V) : Decidable (canonicalDistinct h) := by
  unfold canonicalDistinct
  exact inferInstance

/-! ## Headers in memory

`http.Header` is `map[string][]string`: a reference to a map object whose values are
slices, themselves references to backing arrays. The memory model makes both
explicit. -/

/-- A Go slice of strings: the address of its backing array and its length. -/
structure Slice where
  array : Nat
  len : Nat
  deriving DecidableEq, Repr

/-- The memory: the map objects and the backing arrays, each by address. -/
structure Memory where
  maps : List (GoMap Slice)
  arrays : List (List String)
  deriving DecidableEq, Repr

/-- The contents of the map object at address `a`. -/
def Memory.mapAt (mem : Memory) (a : Nat) : GoMap Slice :=
  mem.maps.getD a []

/-- The elements of a slice. -/
def Memory.elems (mem : Memory) (s : Slice) : List String :=
  (mem.arrays.getD s.array []).take s.len

/-- The header collection held at address `a`, read by value: every key with the
elements of its slice. -/
def Memory.view (mem : Memory) (a : Nat) : Header :=
  (mem.mapAt a).map (fun e => (e.1, mem.elems e.2))

/-- The allocation `make(http.Header)`: a new empty map object at a fresh address. -/
def Memory.makeMap (mem : Memory) : Memory × Nat :=
  ({ mem with maps := mem.maps ++ [[]] }, mem.maps.length)

/-- The function `cloneHeader` on references: the new map object is filled by
`copyHeader` from the map object of `h`; the slices are assigned as they are. -/
def Memory.cloneHeader (mem : Memory) (h : Nat) : Memory × Nat :=
  let (mem1, hh) := mem.makeMap
  ({ mem1 with maps := mem1.maps.set hh (copyHeader (mem1.mapAt hh) (mem1.mapAt h)) }, hh)

/-- The mutations of a header collection that Go offers. -/
inductive Mutation where
  /-- the assignment `m[k] = s`: a key is added, or its value list replaced -/
  | assign (k : String) (s : Slice)
  /-- the deletion `delete(m, k)` -/
  | delete (k : String)
  /-- the element assignment `m[k][i] = x`, in place -/
  | setElem (k : String) (i : Nat) (x : String)
  deriving DecidableEq, Repr

/-- A mutation applied to the header collection at address `a`. An element
assignment outside the slice of its key panics and changes nothing. -/
def Memory.mutate (mem : Memory) (a : Nat) : Mutation → Memory
  | Mutation.assign k s => { mem with maps := mem.maps.set a (GoMap.set (mem.mapAt a) k s) }
  | Mutation.delete k => { mem with maps := mem.maps.set a (GoMap.delete (mem.mapAt a) k) }
  | Mutation.setElem k i x =>
    match GoMap.get (mem.mapAt a) k with
    | none => mem
    | some s =>
      if i < s.len then
        { mem with arrays := mem.arrays.set s.array ((mem.arrays.getD s.array []).set i x) }
      else mem

/-- A mutation that changes an element of a value list in place. -/
def Mutation.inPlace : Mutation → Bool
  | Mutation.setElem _ _ _ => true
  | _ => false

/-! ## Streaming -/

abbrev Byte := Nat

/-- The result of one call `l, rerr := from.Read(b)` on the buffer of `copyStream`:
the bytes stored at the start of `b` (their number is `l`) and the error. By the
contract of `io.Reader`, `0 <= l <= len(b)`. -/
structure ReadResult where
  data : List Byte
  rerr : Option GoError
  fits : data.length ≤ proxyBufferSize

/-- An `io.Reader`: the result of its `i`-th call of `Read`, from 0. -/
abbrev Reader := Nat → ReadResult

/-- The `io.Writer` half of a `flusherWriter`: the error of its `i`-th call of
`Write`, from 0, for the chunk it is given. A write without error takes the whole
chunk. -/
abbrev Writer := Nat → List Byte → Option GoError

/-- What `copyStream` does to its reader and writer. -/
inductive IOEvent where
  | read (data : List Byte) (rerr : Option GoError)
  | write (chunk : List Byte) (werr : Option GoError)
  | flush
  deriving DecidableEq, Repr

/-- The loop of `copyStream` from its `i`-th iteration on, with fuel: the error
returned and the events, or `none` when the fuel is used up before the loop returns.

    ```go
    for {
        b := make([]byte, proxyBufferSize)
        l, rerr := from.Read(b)
        if rerr != nil && rerr != io.EOF { return rerr }
        _, werr := to.Write(b[:l])
        if werr != nil { return werr }
        to.Flush()
        if rerr == io.EOF { return nil }
    }
    ```
-/
def copyStreamLoop (dst : Writer) (src : Reader) :
    Nat → Nat → Option (Option GoError × List IOEvent)
  | 0, _ => none
  | fuel + 1, i =>
    let b : List Byte := List.replicate proxyBufferSize 0
    let res := src i
    let b := res.data ++ b.drop res.data.length
    let l := res.data.length
    let rerr := res.rerr
    if rerr ≠ none ∧ rerr ≠ some GoError.EOF then
      some (rerr, [IOEvent.read res.data rerr])
    else
      let chunk := b.take l
      let werr := dst i chunk
      if werr ≠ none then
        some (werr, [IOEvent.read res.data rerr, IOEvent.write chunk werr])
      else if rerr = some GoError.EOF then
        some (none, [IOEvent.read res.data rerr, IOEvent.write chunk werr, IOEvent.flush])
      else
        match copyStreamLoop dst src fuel (i + 1) with
        | none => none
        | some (e, tr) =>
          some (e, IOEvent.read res.data rerr :: IOEvent.write chunk werr :: IOEvent.flush :: tr)

/-- The function `copyStream(to, from)`, with `dst` for `to` and `src` for `from`. -/
def copyStream (fuel : Nat) (dst : Writer) (src : Reader) :
    Option (Option GoError × List IOEvent) :=
  copyStreamLoop dst src fuel 0

/-- The chunks handed to `Write`, in order. -/
def writtenChunks : List IOEvent → List (List Byte)
  | [] => []
  | IOEvent.write chunk _ :: tr => chunk :: writtenChunks tr
  | _ :: tr => writtenChunks tr

/-- The bytes taken by the writes that succeeded, in order. -/
def bytesWritten : List IOEvent → List Byte
  | [] => []
  | IOEvent.write chunk none :: tr => chunk ++ bytesWritten tr
  | _ :: tr => bytesWritten tr

/-- The bytes delivered by the reads, in order. -/
def bytesRead : List IOEvent → List Byte
  | [] => []
  | IOEvent.read data _ :: tr => data ++ bytesRead tr
  | _ :: tr => bytesRead tr

/-- The number of `Flush` calls. -/
def flushCount (tr : List IOEvent) : Nat :=
  tr.count IOEvent.flush

/-- The number of `Write` calls. -/
def writeCount (tr : List IOEvent) : Nat :=
  (writtenChunks tr).length

/-- Every `Write` is followed at once by a `Flush`, and every `Flush` follows a
`Write`. -/
def flushedAfterEachWrite : List IOEvent → Bool
  | [] => true
  | IOEvent.write _ _ :: IOEvent.flush :: tr => flushedAfterEachWrite tr
  | IOEvent.write _ _ :: _ => false
  | IOEvent.flush :: _ => false
  | IOEvent.read _ _ :: tr => flushedAfterEachWrite tr

/-- The bytes of a body: what the reads `0 .. n` of the reader deliver, in order. -/
def bodyBytes (src : Reader) : Nat → List Byte
  | 0 => (src 0).data
  | n + 1 => bodyBytes src n ++ (src (n + 1)).data

/-- The reader is a body that ends at read `n`: the reads before `n` return no
error and read `n` returns `io.EOF`. -/
def endsAt (src : Reader) (n : Nat) : Prop :=
  (∀ i, i < n → (src i).rerr = none) ∧ (src n).rerr = some GoError.EOF

/-- The writer takes every chunk that the reader delivers up to read `n`. -/
def writesSucceed (dst : Writer) (src : Reader) (n : Nat) : Prop :=
  ∀ i, i ≤ n → dst i (src i).data = none

instance (src : Reader) (n : Nat) : Decidable (endsAt src n) := by
  unfold endsAt
  exact inferInstance

instance (dst : Writer) (src : Reader) (n : Nat) : Decidable (writesSucceed dst src n) := by
  unfold writesSucceed
  exact inferInstance

/-- The events of an iteration of the loop of `copyStream` that reads `data` without
error, writes it without error and flushes. -/
def iteration (data : List Byte) : List IOEvent :=
  [IOEvent.read data none, IOEvent.write data none, IOEvent.flush]

/-- The events of the `cnt` iterations from the `i`-th on, when each of them reads
and writes without error. -/
def iterations (src : Reader) : Nat → Nat → List IOEvent
  | _, 0 => []
  | i, cnt + 1 => iteration (src i).data ++ iterations src (i + 1) cnt

/-- What the `n`-th iteration of the loop returns if the loop ends in it, with the
events of the iteration; `none` if the loop goes on. -/
def lastIteration (dst : Writer) (src : Reader) (n : Nat) :
    Option (Option GoError × List IOEvent) :=
  let res := src n
  if res.rerr ≠ none ∧ res.rerr ≠ some GoError.EOF then
    some (res.rerr, [IOEvent.read res.data res.rerr])
  else if dst n res.data ≠ none then
    some (dst n res.data, [IOEvent.read res.data res.rerr, IOEvent.write res.data (dst n res.data)])
  else if res.rerr = some GoError.EOF then
    some (none, [IOEvent.read res.data res.rerr, IOEvent.write res.data none, IOEvent.flush])
  else none

/-- The bytes that the `cnt` reads from the `i`-th on deliver, in order. -/
def delivered (src : Reader) : Nat → Nat → List Byte
  | _, 0 => []
  | i, cnt + 1 => (src i).data ++ delivered src (i + 1) cnt

/-- The quotient `S / B` rounded up. -/
def ceilDiv (S B : Nat) : Nat :=
  (S + B - 1) / B

/-- The reader fills the buffer in every read before the last one that delivers
bytes, delivers at least one byte in that one, and reports the end of the stream in
an empty read of its own. -/
def fillsBuffer (src : Reader) (n : Nat) : Prop :=
  (src n).data = [] ∧
  ∀ i, i < n → (i + 1 < n → (src i).data.length = proxyBufferSize) ∧
    (i + 1 = n → 0 < (src i).data.length)

instance (src : Reader) (n : Nat) : Decidable (fillsBuffer src n) := by
  unfold fillsBuffer
  exact inferInstance

/-- The reads and the writes of the iterations before `n` return no error. -/
def cleanBefore (dst : Writer) (src : Reader) (n : Nat) : Prop :=
  ∀ i, i < n → (src i).rerr = none ∧ dst i (src i).data = none

instance (dst : Writer) (src : Reader) (n : Nat) : Decidable (cleanBefore dst src n) := by
  unfold cleanBefore
  exact inferInstance

/-! ## Requests, responses and the filter context -/

/-- The fields of `http.Request` that the proxy reads. -/
structure Request where
  Method : String
  URL : String
  Header : Header
  Body : Reader

/-- The fields of `http.Response` that the proxy reads; `closeErr` is what
`Body.Close()` returns. -/
structure Response where
  StatusCode : Nat
  Header : Header
  Body : Reader
  closeErr : Option GoError

/-- What is done to an `http.ResponseWriter`. -/
inductive WriterOp where
  | WriteHeader (code : Nat)
  | Write (chunk : List Byte)
  | Flush
  deriving DecidableEq, Repr

/-- The `http.ResponseWriter` of the caller: its header map, the operations done to
it so far, the errors of its `Write` calls during streaming, and whether it is an
`http.Flusher` as well. -/
structure ResponseWriter where
  header : Header
  ops : List WriterOp
  writeErr : Writer
  isFlusher : Bool

/-- The struct `filterContext`. Its getters `ResponseWriter()`, `Request()` and
`Response()` return the three fields. -/
structure FilterContext where
  w : ResponseWriter
  req : Request
  res : Option Response

/-- How a call of a filter operation ends: it returns, or it panics with a value
(`none` for `panic(nil)`). -/
inductive Completion where
  | returned
  | panicked (v : Option String)
  deriving DecidableEq, Repr

/-- How a call of `Id()` ends: it returns the identifier, or it panics with a value
(`none` for `panic(nil)`), as every method of an interface value can, and as every
method of a nil interface value does. -/
inductive IdResult where
  | returned (id : String)
  | panicked (v : Option String)
  deriving DecidableEq, Repr

/-- The interface `skipper.Filter`, of which the proxy uses `Id()`, `Request(ctx)`
and `Response(ctx)`. An operation changes what the context refers to and returns or
panics; `Id()` returns the identifier for the log or panics. -/
structure Filter where
  Id : IdResult
  Request : FilterContext → FilterContext × Completion
  Response : FilterContext → FilterContext × Completion

/-- The interface `skipper.Backend`. -/
structure Backend where
  Url : String
  deriving DecidableEq, Repr

/-- The interface `skipper.Route`; a nil backend is `none`. -/
structure Route where
  Backend : Option Backend
  Filters : List Filter

/-- The interface `skipper.Settings`: `Route(r)` returns a route, nil or not, and
an error, nil or not. -/
structure Settings where
  Route : Request → Option Route × Option GoError

/-- What the proxy does, in order. -/
inductive Event where
  /-- the call `s.Route(r)` -/
  | route
  /-- the call `fi.Request(ctx)` -/
  | filterRequest (fi : Filter)
  /-- the call `fi.Response(ctx)` -/
  | filterResponse (fi : Filter)
  /-- a line written by `log.Println` -/
  | log (msg : String)
  /-- the call `http.Error(w, http.StatusText(code), code)` of `hterr` -/
  | httpError (code : Nat)
  /-- the call `http.NewRequest(method, url, body)` -/
  | newRequest (method url : String)
  /-- the call `p.transport.RoundTrip(rr)` -/
  | roundTrip (rr : Request)
  /-- the call `copyHeader(w.Header(), rs.Header)` -/
  | copyHeader (h : Header)
  /-- the call `w.WriteHeader(code)` -/
  | writeHeader (code : Nat)
  /-- an event of `copyStream(w, rs.Body)` -/
  | stream (e : IOEvent)
  /-- the call `rs.Body.Close()` -/
  | bodyClose

/-- The state that the proxy threads through a request: the filter context and the
trace of its own actions. -/
structure State where
  ctx : FilterContext
  trace : List Event

/-- The method `Error()` of an error value. -/
def GoError.Error : GoError → String
  | GoError.EOF => "EOF"
  | GoError.err msg => msg

/-- The formatting of an error by `%v` and by `log.Println`. -/
def fmtError : Option GoError → String
  | none => "<nil>"
  | some e => e.Error

/-! ## The filter chain -/

/-- What the deferred function of `applyFilterSafe` does for the way in which the
call of a filter ended: the line it logs, and whether it returns or panics. -/
def recovered (f : Filter) : Completion → List Event × Completion
  | Completion.returned => ([], Completion.returned)
  | Completion.panicked none => ([], Completion.returned)
  | Completion.panicked (some err) =>
    match f.Id with
    | IdResult.returned id =>
      ([Event.log ("middleware " ++ id ++ " " ++ err)], Completion.returned)
    | IdResult.panicked v => ([], Completion.panicked v)

/-- The function `applyFilterSafe(f, p)`: `p` runs, and the deferred function
recovers a panic of `p`. If `recover()` gives nil, as it does when `p` returned and
for `panic(nil)`, the call returns. Otherwise the deferred function evaluates
`f.Id()` for the log line: if `Id()` returns, the line is logged and the call
returns; if `Id()` panics, nothing recovers that panic and it leaves
`applyFilterSafe`.

    ```go
    defer func() {
        if err := recover(); err != nil { log.Println("middleware", f.Id(), err) }
    }()
    p()
    ```
-/
def applyFilterSafe (f : Filter) (p : State → State × Completion) (st : State) :
    State × Completion :=
  match p st with
  | (st1, Completion.returned) => (st1, Completion.returned)
  | (st1, Completion.panicked none) => (st1, Completion.returned)
  | (st1, Completion.panicked (some err)) =>
    match f.Id with
    | IdResult.returned id =>
      ({ st1 with trace := st1.trace ++ [Event.log ("middleware " ++ id ++ " " ++ err)] },
        Completion.returned)
    | IdResult.panicked v => (st1, Completion.panicked v)

/-- The closure `func() { fi.Request(ctx) }`. -/
def callRequest (fi : Filter) (st : State) : State × Completion :=
  let r := fi.Request st.ctx
  ({ ctx := r.1, trace := st.trace ++ [Event.filterRequest fi] }, r.2)

/-- The closure `func() { fi.Response(ctx) }`. -/
def callResponse (fi : Filter) (st : State) : State × Completion :=
  let r := fi.Response st.ctx
  ({ ctx := r.1, trace := st.trace ++ [Event.filterResponse fi] }, r.2)

/-- The function `applyFiltersToRequest`:
`for _, fi := range f { applyFilterSafe(fi, func() { fi.Request(ctx) }) }`.
A panic that leaves `applyFilterSafe` ends the loop and leaves the function. -/
def applyFiltersToRequest : List Filter → State → State × Completion
  | [], st => (st, Completion.returned)
  | fi :: f, st =>
    match applyFilterSafe fi (callRequest fi) st with
    | (st1, Completion.returned) => applyFiltersToRequest f st1
    | (st1, Completion.panicked v) => (st1, Completion.panicked v)

/-- The loop of `applyFiltersToResponse` over the indices `is` that are left:
`fi := f[len(f)-1-i]; applyFilterSafe(fi, func() { fi.Response(ctx) })`.
An index outside the slice is a run-time panic, which leaves the function, as does
a panic that leaves `applyFilterSafe`. -/
def applyFiltersToResponseLoop (f : List Filter) : List Nat → State → State × Completion
  | [], st => (st, Completion.returned)
  | i :: is, st =>
    match f.get? (f.length - 1 - i) with
    | none => (st, Completion.panicked (some "index out of range"))
    | some fi =>
      match applyFilterSafe fi (callResponse fi) st with
      | (st1, Completion.returned) => applyFiltersToResponseLoop f is st1
      | (st1, Completion.panicked v) => (st1, Completion.panicked v)

/-- The function `applyFiltersToResponse`: `for i, _ := range f { ... }`. -/
def applyFiltersToResponse (f : List Filter) (st : State) : State × Completion :=
  applyFiltersToResponseLoop f (List.range f.length) st

/-- The filters whose `Request` operation the trace records, in order. -/
def requestCalls : List Event → List Filter
  | [] => []
  | Event.filterRequest fi :: tr => fi :: requestCalls tr
  | _ :: tr => requestCalls tr

/-- The filters whose `Response` operation the trace records, in order. -/
def responseCalls : List Event → List Filter
  | [] => []
  | Event.filterResponse fi :: tr => fi :: responseCalls tr
  | _ :: tr => responseCalls tr

/-! ## The proxy -/

/-- A Go channel seen from its receiver: the values sent and not yet received (in a
buffer, or offered by a sender that waits), and whether the channel is closed. -/
structure Chan (α : Type) where
  cap : Nat
  queue : List α
  closed : Bool

/-- The allocation `make(chan T, cap)`. -/
def Chan.make {α : Type} (cap : Nat) : Chan α :=
  { cap := cap, queue := [], closed := false }

/-- A send `c <- v` by another goroutine. -/
def Chan.send {α : Type} (c : Chan α) (v : α) : Chan α :=
  if c.closed then c else { c with queue := c.queue ++ [v] }

/-- The receive `<-c` for a channel of interface values (`none` is nil): the oldest
value if there is one, nil from a closed channel, and otherwise the receive blocks
(`none`): it returns only when another goroutine sends or closes. -/
def Chan.recv {α : Type} (c : Chan (Option α)) : Option (Option α × Chan (Option α)) :=
  match c.queue with
  | v :: rest => some (v, { c with queue := rest })
  | [] => if c.closed then some (none, c) else none

/-- The type `http.Transport`: what a round trip to the backend returns. -/
structure Transport where
  RoundTrip : Request → Except GoError Response

/-- The struct `proxy`. -/
structure proxy where
  settings : Chan (Option Settings)
  transport : Transport

/-- The part of the standard library that `http.NewRequest` depends on: whether a
method and a URL are rejected. -/
structure Stdlib where
  requestErr : String → String → Option GoError

/-- The function `http.NewRequest(method, url, body)`. -/
def NewRequest (lib : Stdlib) (method url : String) (body : Reader) : Except GoError Request :=
  match lib.requestErr method url with
  | some err => Except.error err
  | none => Except.ok { Method := method, URL := url, Header := [], Body := body }

/-- The function `mapRequest(r, b)`, with the events of its calls.

    ```go
    if b == nil { return nil, proxyError("missing backend") }
    rr, err := http.NewRequest(r.Method, b.Url(), r.Body)
    if err != nil { return nil, err }
    rr.Header = cloneHeader(r.Header)
    return rr, nil
    ```
-/
def mapRequest (lib : Stdlib) (r : Request) (b : Option Backend) :
    Except GoError Request × List Event :=
  match b with
  | none => (Except.error (proxyError "missing backend"), [])
  | some b =>
    match NewRequest lib r.Method b.Url r.Body with
    | Except.error err => (Except.error err, [Event.newRequest r.Method b.Url])
    | Except.ok rr =>
      (Except.ok { rr with Header := cloneHeader r.Header }, [Event.newRequest r.Method b.Url])

/-- The function `getSettingsBufferSize`. -/
def getSettingsBufferSize : Nat := 0

/-- The function `Make`: the proxy with a new settings channel, which the settings
source is subscribed to, and a new transport (`net` is what its round trips
return). Nothing is sent on the channel yet. -/
def Make (net : Transport) : proxy :=
  { settings := Chan.make getSettingsBufferSize, transport := net }

/-- The bytes of an ASCII string. -/
def stringBytes (s : String) : List Byte :=
  s.toList.map Char.toNat

/-- The function `http.Error(w, text, code)` of the standard library: two headers
are set, the status is written, and the text with a newline is the body. -/
def httpError (w : ResponseWriter) (text : String) (code : Nat) : ResponseWriter :=
  { w with
    header := GoMap.set (GoMap.set w.header "Content-Type" ["text/plain; charset=utf-8"])
      "X-Content-Type-Options" ["nosniff"],
    ops := w.ops ++ [WriterOp.WriteHeader code, WriterOp.Write (stringBytes (text ++ "\n"))] }

/-- The closure `hterr` of `ServeHTTP`:
`http.Error(w, http.StatusText(404), 404); log.Println(err)`. -/
def hterr (err : GoError) (st : State) : State :=
  { ctx := { st.ctx with w := httpError st.ctx.w "Not Found" 404 },
    trace := st.trace ++ [Event.httpError 404, Event.log err.Error] }

/-- What an event of `copyStream` does to the writer. -/
def writerOps : List IOEvent → List WriterOp
  | [] => []
  | IOEvent.read _ _ :: tr => writerOps tr
  | IOEvent.write chunk _ :: tr => WriterOp.Write chunk :: writerOps tr
  | IOEvent.flush :: tr => WriterOp.Flush :: writerOps tr

/-- The deferred function of `ServeHTTP`:
`err = rs.Body.Close(); if err != nil { log.Println(err) }`. -/
def closeBody (rs : Response) (st : State) : State :=
  match rs.closeErr with
  | none => { st with trace := st.trace ++ [Event.bodyClose] }
  | some err => { st with trace := st.trace ++ [Event.bodyClose, Event.log err.Error] }

/-- How a call of `ServeHTTP` ends. -/
inductive Exit where
  /-- the handler returned -/
  | returned
  /-- the handler waits in `<-p.settings` -/
  | blocked
  /-- the handler panicked -/
  | panicked
  /-- the handler is still streaming when the fuel is used up -/
  | streaming
  deriving DecidableEq, Repr

/-- The result of a call of `ServeHTTP`. -/
structure Result where
  exit : Exit
  p : proxy
  st : State

/-- The success path of `ServeHTTP` from the response filters on.

    ```go
    c.res = rs
    applyFiltersToResponse(f, c)
    defer func() { err = rs.Body.Close(); if err != nil { log.Println(err) } }()
    copyHeader(w.Header(), rs.Header)
    w.WriteHeader(rs.StatusCode)
    copyStream(w.(flusherWriter), rs.Body)
    ```

The filters work on the response that `rs` points to; the proxy reads it as they
left it. -/
def respond (fuel : Nat) (p : proxy) (f : List Filter) (rs : Response) (st : State) : Result :=
  match applyFiltersToResponse f { st with ctx := { st.ctx with res := some rs } } with
  | (st, Completion.panicked _) => { exit := Exit.panicked, p := p, st := st }
  | (st, Completion.returned) =>
  let rs := st.ctx.res.getD rs
  let st : State :=
    { ctx := { st.ctx with w := { st.ctx.w with header := copyHeader st.ctx.w.header rs.Header } },
      trace := st.trace ++ [Event.copyHeader rs.Header] }
  let st : State :=
    { ctx := { st.ctx with
        w := { st.ctx.w with ops := st.ctx.w.ops ++ [WriterOp.WriteHeader rs.StatusCode] } },
      trace := st.trace ++ [Event.writeHeader rs.StatusCode] }
  if st.ctx.w.isFlusher then
    match copyStream fuel st.ctx.w.writeErr rs.Body with
    | none => { exit := Exit.streaming, p := p, st := st }
    | some (_, evs) =>
      let st : State :=
        { ctx := { st.ctx with w := { st.ctx.w with ops := st.ctx.w.ops ++ writerOps evs } },
          trace := st.trace ++ evs.map Event.stream }
      { exit := Exit.returned, p := p, st := closeBody rs st }
  else
    { exit := Exit.panicked, p := p, st := closeBody rs st }

/-- The method `ServeHTTP(w, r)` of the proxy.

    ```go
    s := <-p.settings
    if s == nil { hterr(proxyError("missing settings")); return }
    rt, err := s.Route(r)
    if rt == nil || err != nil { hterr(proxyError(fmt.Sprintf("routing failed: %v %v", r.URL, err))); return }
    f := rt.Filters()
    c := &filterContext{w, r, nil}
    applyFiltersToRequest(f, c)
    rr, err := mapRequest(r, rt.Backend())
    if err != nil { hterr(err); return }
    rs, err := p.transport.RoundTrip(rr)
    if err != nil { hterr(err); return }
    ```
and then the success path `respond`. -/
def ServeHTTP (lib : Stdlib) (fuel : Nat) (p : proxy) (w : ResponseWriter) (r : Request) :
    Result :=
  let st : State := { ctx := { w := w, req := r, res := none }, trace := [] }
  match p.settings.recv with
  | none => { exit := Exit.blocked, p := p, st := st }
  | some (none, ch) =>
    { exit := Exit.returned, p := { p with settings := ch },
      st := hterr (proxyError "missing settings") st }
  | some (some s, ch) =>
    let p := { p with settings := ch }
    let routed := s.Route r
    let st := { st with trace := st.trace ++ [Event.route] }
    match routed with
    | (some rt, none) =>
      let f := rt.Filters
      match applyFiltersToRequest f st with
      | (st, Completion.panicked _) => { exit := Exit.panicked, p := p, st := st }
      | (st, Completion.returned) =>
        let mapped := mapRequest lib st.ctx.req rt.Backend
        let st := { st with trace := st.trace ++ mapped.2 }
        match mapped.1 with
        | Except.error err => { exit := Exit.returned, p := p, st := hterr err st }
        | Except.ok rr =>
          let st := { st with trace := st.trace ++ [Event.roundTrip rr] }
          match p.transport.RoundTrip rr with
          | Except.error err => { exit := Exit.returned, p := p, st := hterr err st }
          | Except.ok rs => respond fuel p f rs st
    | (_, err) =>
      { exit := Exit.returned, p := p,
        st := hterr (proxyError ("routing failed: " ++ r.URL ++ " " ++ fmtError err)) st }

/-- The request phase of `ServeHTTP` for the route `rt`: the state it leaves, and
whether it returns or panics. -/
def requestPhase (w : ResponseWriter) (r : Request) (rt : Route) : State × Completion :=
  applyFiltersToRequest rt.Filters
    { ctx := { w := w, req := r, res := none }, trace := [Event.route] }

/-- The state of `ServeHTTP` after the request filters of the route `rt`. -/
def afterRequestFilters (w : ResponseWriter) (r : Request) (rt : Route) : State :=
  (requestPhase w r rt).1

/-- Whether `Id()` of the filter returns. -/
def Filter.idReturns (f : Filter) : Bool :=
  match f.Id with
  | IdResult.returned _ => true
  | IdResult.panicked _ => false

/-- The result of `mapRequest(r, rt.Backend())` in `ServeHTTP`, for the request as
the request filters left it. -/
def outboundRequest (lib : Stdlib) (w : ResponseWriter) (r : Request) (rt : Route) :
    Except GoError Request :=
  (mapRequest lib (afterRequestFilters w r rt).ctx.req rt.Backend).1

/-- The response statuses that the proxy writes, in order: by `hterr` and by
`w.WriteHeader`. -/
def statusWrites : List Event → List Nat
  | [] => []
  | Event.httpError code :: tr => code :: statusWrites tr
  | Event.writeHeader code :: tr => code :: statusWrites tr
  | _ :: tr => statusWrites tr

/-- Whether an event writes a header or a body byte of the backend response to the
caller. -/
def Event.isBackendOutput : Event → Bool
  | Event.copyHeader _ => true
  | Event.writeHeader _ => true
  | Event.stream (IOEvent.write _ _) => true
  | Event.stream IOEvent.flush => true
  | _ => false

/-- Whether an event is a route resolution, a filter call, the building of an
outbound request or a round trip. -/
def Event.isWork : Event → Bool
  | Event.route => true
  | Event.filterRequest _ => true
  | Event.filterResponse _ => true
  | Event.newRequest _ _ => true
  | Event.roundTrip _ => true
  | _ => false

/-- Whether an event belongs to the filter chain: a call of a filter or a log
line. -/
def Event.isChain : Event → Bool
  | Event.filterRequest _ => true
  | Event.filterResponse _ => true
  | Event.log _ => true
  | _ => false

/-! ## Sample values -/

/-- A body of two bytes, delivered by the first read; the second read reports the
end of the stream. -/
def sampleBody : Reader := fun i =>
  if i = 0 then { data := [104, 105], rerr := none, fits := by decide }
  else { data := [], rerr := some GoError.EOF, fits := by decide }

/-- A body of two bytes, delivered one byte per read; the third read reports the end
of the stream. -/
def slowBody : Reader := fun i =>
  if i < 2 then { data := [120], rerr := none, fits := by decide }
  else { data := [], rerr := some GoError.EOF, fits := by decide }

/-- A body of two bytes, delivered together with the end of the stream by the first
read. -/
def eagerBody : Reader := fun _ =>
  { data := [104, 105], rerr := some GoError.EOF, fits := by decide }

/-- A reader whose second read fails. -/
def brokenBody : Reader := fun i =>
  if i = 0 then { data := [104, 105], rerr := none, fits := by decide }
  else { data := [33], rerr := some (GoError.err "connection reset"), fits := by decide }

/-- A writer whose second write fails. -/
def brokenSink : Writer := fun i _ =>
  if i = 1 then some (GoError.err "broken pipe") else none

/-- A header collection with two keys that differ only in letter case. -/
def mixedCaseHeader : Header :=
  [("x-a", ["1"]), ("X-A", ["2"])]

/-- The same collection, visited by `range` in the other order. -/
def mixedCaseHeaderSwapped : Header :=
  [("X-A", ["2"]), ("x-a", ["1"])]

/-- A header collection with a key that is not in canonical form. -/
def lowerCaseHeader : Header :=
  [("content-type", ["text/plain"]), ("X-B", ["1", "2"])]

/-- A memory with one header collection, at address 0: the key `X-A` with a slice of
one element. -/
def sampleMemory : Memory :=
  { maps := [[("X-A", { array := 0, len := 1 })]], arrays := [["1"]] }

/-- A writer that takes every chunk. -/
def sampleSink : Writer := fun _ _ => none

/-- A filter that appends a header to the request and to the response. -/
def sampleFilter : Filter :=
  { Id := IdResult.returned "sample",
    Request := fun c =>
      ({ c with req := { c.req with Header := GoMap.set c.req.Header "X-Req" ["1"] } },
        Completion.returned),
    Response := fun c =>
      let res := c.res.map (fun rs => { rs with Header := GoMap.set rs.Header "X-Res" ["1"] })
      ({ c with res := res }, Completion.returned) }

/-- A filter that panics in both operations. -/
def faultyFilter : Filter :=
  { Id := IdResult.returned "faulty",
    Request := fun c => (c, Completion.panicked (some "boom")),
    Response := fun c => (c, Completion.panicked (some "boom")) }

/-- A filter that does nothing. -/
def plainFilter : Filter :=
  { Id := IdResult.returned "plain",
    Request := fun c => (c, Completion.returned),
    Response := fun c => (c, Completion.returned) }

/-- A filter that panics in both operations and whose `Id()` panics as well, as
for a nil entry of the filter list. -/
def brokenFilter : Filter :=
  { Id := IdResult.panicked (some "id boom"),
    Request := fun c => (c, Completion.panicked (some "boom")),
    Response := fun c => (c, Completion.panicked (some "boom")) }

/-- A route to a backend through three filters. -/
def sampleRoute : Route :=
  { Backend := some { Url := "http://backend.example/bar" },
    Filters := [sampleFilter, faultyFilter, plainFilter] }

/-- A route to a backend through three filters, the second of them broken. -/
def brokenRoute : Route :=
  { Backend := some { Url := "http://backend.example/bar" },
    Filters := [sampleFilter, brokenFilter, plainFilter] }

/-- Settings that resolve every request to `sampleRoute`. -/
def sampleSettings : Settings :=
  { Route := fun _ => (some sampleRoute, none) }

/-- A backend that answers every request with status 200 and `sampleBody`. -/
def sampleNet : Transport :=
  { RoundTrip := fun _ => Except.ok
      { StatusCode := 200, Header := [("Content-Type", ["text/plain"])],
        Body := sampleBody, closeErr := none } }

/-- A backend that refuses every connection. -/
def refusingNet : Transport :=
  { RoundTrip := fun _ => Except.error (GoError.err "connection refused") }

/-- A standard library that accepts every method and URL. -/
def sampleLib : Stdlib :=
  { requestErr := fun _ _ => none }

/-- A fresh response writer whose writes succeed. -/
def sampleWriter : ResponseWriter :=
  { header := [], ops := [], writeErr := fun _ _ => none, isFlusher := true }

/-- The request `GET /foo` without headers and body. -/
def sampleRequest : Request :=
  { Method := "GET", URL := "/foo", Header := [],
    Body := fun _ => { data := [], rerr := some GoError.EOF, fits := by decide } }

/-- The state of a handler that has done nothing yet. -/
def sampleState : State :=
  { ctx := { w := sampleWriter, req := sampleRequest, res := none }, trace := [] }

/-- A proxy to which `sampleSettings` was published once. -/
def sampleProxy : proxy :=
  { settings := (Make sampleNet).settings.send (some sampleSettings), transport := sampleNet }

/-- A proxy whose settings channel was closed before anything was sent. -/
def closedProxy : proxy :=
  { settings := { (Make sampleNet).settings with closed := true }, transport := sampleNet }

/-- Settings whose resolution returns a route together with an error. -/
def failingSettings : Settings :=
  { Route := fun _ => (some sampleRoute, some (GoError.err "ambiguous")) }

/-- A proxy to which `failingSettings` was published once. -/
def failingProxy : proxy :=
  { settings := (Make sampleNet).settings.send (some failingSettings), transport := sampleNet }

/-- A proxy with `sampleSettings` whose backend refuses the connection. -/
def refusedProxy : proxy :=
  { settings := (Make refusingNet).settings.send (some sampleSettings),
    transport := refusingNet }

/-- Settings that resolve every request to `brokenRoute`. -/
def brokenSettings : Settings :=
  { Route := fun _ => (some brokenRoute, none) }

/-- A proxy to which `brokenSettings` was published once. -/
def brokenProxy : proxy :=
  { settings := (Make sampleNet).settings.send (some brokenSettings), transport := sampleNet }

/-! ## Lemmas on the filter chain -/

theorem requestCalls_append (a b : List Event) :
    requestCalls (a ++ b) = requestCalls a ++ requestCalls b := by
  induction a with
  | nil => rfl
  | cons e a ih => cases e <;> simp [requestCalls, ih]

theorem responseCalls_append (a b : List Event) :
    responseCalls (a ++ b) = responseCalls a ++ responseCalls b := by
  induction a with
  | nil => rfl
  | cons e a ih => cases e <;> simp [responseCalls, ih]

theorem applyFilterSafe_callRequest (fi : Filter) (st : State) :
    applyFilterSafe fi (callRequest fi) st =
      ({ ctx := (fi.Request st.ctx).1,
         trace := st.trace ++ Event.filterRequest fi :: (recovered fi (fi.Request st.ctx).2).1 },
        (recovered fi (fi.Request st.ctx).2).2) := by
  unfold applyFilterSafe callRequest
  rcases h : fi.Request st.ctx with ⟨c, r⟩
  rcases r with _ | _ | err
  · simp [recovered]
  · simp [recovered]
  · simp only [recovered]
    rcases fi.Id with id | v <;> simp

theorem applyFilterSafe_callResponse (fi : Filter) (st : State) :
    applyFilterSafe fi (callResponse fi) st =
      ({ ctx := (fi.Response st.ctx).1,
         trace := st.trace ++
           Event.filterResponse fi :: (recovered fi (fi.Response st.ctx).2).1 },
        (recovered fi (fi.Response st.ctx).2).2) := by
  unfold applyFilterSafe callResponse
  rcases h : fi.Response st.ctx with ⟨c, r⟩
  rcases r with _ | _ | err
  · simp [recovered]
  · simp [recovered]
  · simp only [recovered]
    rcases fi.Id with id | v <;> simp

theorem isChain_recovered (fi : Filter) (c : Completion) :
    ∀ e ∈ (recovered fi c).1, e.isChain = true := by
  rcases c with _ | _ | err
  · simp [recovered]
  · simp [recovered]
  · simp only [recovered]
    rcases fi.Id with id | v <;> simp [Event.isChain]

theorem requestCalls_recovered (fi : Filter) (c : Completion) :
    requestCalls (recovered fi c).1 = [] := by
  rcases c with _ | _ | err
  · rfl
  · rfl
  · simp only [recovered]
    rcases fi.Id with id | v <;> rfl

theorem responseCalls_recovered (fi : Filter) (c : Completion) :
    responseCalls (recovered fi c).1 = [] := by
  rcases c with _ | _ | err
  · rfl
  · rfl
  · simp only [recovered]
    rcases fi.Id with id | v <;> rfl

/-- The deferred function returns when `Id()` of the filter returns. -/
theorem recovered_returns (fi : Filter) (c : Completion) (hid : fi.idReturns = true) :
    (recovered fi c).2 = Completion.returned := by
  rcases c with _ | _ | err
  · rfl
  · rfl
  · unfold Filter.idReturns at hid
    simp only [recovered]
    rcases h : fi.Id with id | v
    · rfl
    · rw [h] at hid
      simp at hid

theorem statusWrites_append (a b : List Event) :
    statusWrites (a ++ b) = statusWrites a ++ statusWrites b := by
  induction a with
  | nil => rfl
  | cons e a ih => cases e <;> simp [statusWrites, ih]

theorem statusWrites_of_isChain (ext : List Event) (h : ∀ e ∈ ext, e.isChain = true) :
    statusWrites ext = [] := by
  induction ext with
  | nil => rfl
  | cons e ext ih =>
    have he := h e (List.mem_cons_self _ _)
    have ih1 := ih (fun e1 h1 => h e1 (List.mem_cons_of_mem _ h1))
    cases e <;> simp_all [statusWrites, Event.isChain]

theorem any_isBackendOutput_of_isChain (ext : List Event) (h : ∀ e ∈ ext, e.isChain = true) :
    ext.any Event.isBackendOutput = false := by
  rw [List.any_eq_false]
  intro e he
  have h1 := h e he
  cases e <;> simp_all [Event.isChain, Event.isBackendOutput]

/-- The request phase adds only events of the filter chain to the trace, however it
ends. -/
theorem applyFiltersToRequest_shape (f : List Filter) (st : State) :
    ∃ ext, (applyFiltersToRequest f st).1.trace = st.trace ++ ext ∧
      ∀ e ∈ ext, e.isChain = true := by
  induction f generalizing st with
  | nil => exact ⟨[], by simp [applyFiltersToRequest]⟩
  | cons fi f ih =>
    simp only [applyFiltersToRequest, applyFilterSafe_callRequest]
    have hmem : ∀ e ∈ Event.filterRequest fi :: (recovered fi (fi.Request st.ctx).2).1,
        e.isChain = true := by
      intro e he
      rcases List.mem_cons.mp he with rfl | he
      · rfl
      · exact isChain_recovered _ _ e he
    rcases hc : (recovered fi (fi.Request st.ctx).2).2 with _ | v
    · obtain ⟨ext, h1, h2⟩ := ih
        { ctx := (fi.Request st.ctx).1,
          trace := st.trace ++
            Event.filterRequest fi :: (recovered fi (fi.Request st.ctx).2).1 }
      refine ⟨Event.filterRequest fi :: (recovered fi (fi.Request st.ctx).2).1 ++ ext, ?_, ?_⟩
      · simp only
        rw [h1]
        simp
      · intro e he
        rcases List.mem_append.mp he with he | he
        · exact hmem e he
        · exact h2 e he
    · exact ⟨Event.filterRequest fi :: (recovered fi (fi.Request st.ctx).2).1, rfl, hmem⟩

theorem applyFiltersToResponseLoop_shape (f : List Filter) (is : List Nat) (st : State) :
    ∃ ext, (applyFiltersToResponseLoop f is st).1.trace = st.trace ++ ext ∧
      ∀ e ∈ ext, e.isChain = true := by
  induction is generalizing st with
  | nil => exact ⟨[], by simp [applyFiltersToResponseLoop]⟩
  | cons i is ih =>
    simp only [applyFiltersToResponseLoop]
    split
    · exact ⟨[], by simp⟩
    · rename_i fi hfi
      simp only [applyFilterSafe_callResponse]
      have hmem : ∀ e ∈ Event.filterResponse fi :: (recovered fi (fi.Response st.ctx).2).1,
          e.isChain = true := by
        intro e he
        rcases List.mem_cons.mp he with rfl | he
        · rfl
        · exact isChain_recovered _ _ e he
      rcases hc : (recovered fi (fi.Response st.ctx).2).2 with _ | v
      · obtain ⟨ext, h1, h2⟩ := ih
          { ctx := (fi.Response st.ctx).1,
            trace := st.trace ++
              Event.filterResponse fi :: (recovered fi (fi.Response st.ctx).2).1 }
        refine ⟨Event.filterResponse fi :: (recovered fi (fi.Response st.ctx).2).1 ++ ext,
          ?_, ?_⟩
        · simp only
          rw [h1]
          simp
        · intro e he
          rcases List.mem_append.mp he with he | he
          · exact hmem e he
          · exact h2 e he
      · exact ⟨Event.filterResponse fi :: (recovered fi (fi.Response st.ctx).2).1, rfl, hmem⟩

/-- The response phase adds only events of the filter chain to the trace, however
it ends. -/
theorem applyFiltersToResponse_shape (f : List Filter) (st : State) :
    ∃ ext, (applyFiltersToResponse f st).1.trace = st.trace ++ ext ∧
      ∀ e ∈ ext, e.isChain = true :=
  applyFiltersToResponseLoop_shape f _ st

theorem range_map_get?_reverse {α : Type} (f : List α) :
    (List.range f.length).map (fun i => f.get? (f.length - 1 - i)) = f.reverse.map some := by
  apply List.ext_getElem?
  intro i
  by_cases hi : i < f.length
  · have hlt : f.length - 1 - i < f.length := by omega
    rw [List.getElem?_map, List.getElem?_map, List.getElem?_range hi,
      List.getElem?_reverse hi]
    simp [List.getElem?_eq_getElem hlt]
  · have h1 : f.length ≤ i := by omega
    simp [List.getElem?_eq_none, h1]

/-- The request phase over filters whose `Id()` returns: it returns, whatever the
operations of the filters do, and calls the `Request` operation of every filter once,
in the order of the list. -/
theorem applyFiltersToRequest_of_idReturns (f : List Filter) (st : State)
    (hid : ∀ fi ∈ f, fi.idReturns = true) :
    (applyFiltersToRequest f st).2 = Completion.returned ∧
    requestCalls (applyFiltersToRequest f st).1.trace = requestCalls st.trace ++ f ∧
    responseCalls (applyFiltersToRequest f st).1.trace = responseCalls st.trace := by
  induction f generalizing st with
  | nil => simp [applyFiltersToRequest]
  | cons fi f ih =>
    have hfi : fi.idReturns = true := hid fi (List.mem_cons_self _ _)
    have hrest : ∀ fj ∈ f, fj.idReturns = true :=
      fun fj hj => hid fj (List.mem_cons_of_mem _ hj)
    simp only [applyFiltersToRequest, applyFilterSafe_callRequest, recovered_returns fi _ hfi]
    refine ⟨(ih _ hrest).1, ?_, ?_⟩
    · rw [(ih _ hrest).2.1]
      simp [requestCalls_append, requestCalls, requestCalls_recovered]
    · rw [(ih _ hrest).2.2]
      simp [responseCalls_append, responseCalls, responseCalls_recovered]

theorem applyFiltersToResponseLoop_of_idReturns (f : List Filter) (is : List Nat)
    (his : ∀ i ∈ is, i < f.length) (hid : ∀ fi ∈ f, fi.idReturns = true) (st : State) :
    (applyFiltersToResponseLoop f is st).2 = Completion.returned ∧
    (responseCalls (applyFiltersToResponseLoop f is st).1.trace).map some =
      (responseCalls st.trace).map some ++ is.map (fun i => f.get? (f.length - 1 - i)) ∧
    requestCalls (applyFiltersToResponseLoop f is st).1.trace = requestCalls st.trace := by
  induction is generalizing st with
  | nil => simp [applyFiltersToResponseLoop]
  | cons i is ih =>
    have hi : i < f.length := his i (List.mem_cons_self _ _)
    have his1 : ∀ j ∈ is, j < f.length := fun j hj => his j (List.mem_cons_of_mem _ hj)
    have hlt : f.length - 1 - i < f.length := by omega
    obtain ⟨fi, hfi⟩ : ∃ fi, f.get? (f.length - 1 - i) = some fi :=
      ⟨f.get ⟨_, hlt⟩, List.get?_eq_get hlt⟩
    have hfid : fi.idReturns = true := hid fi (List.get?_mem hfi)
    simp only [applyFiltersToResponseLoop, hfi, applyFilterSafe_callResponse,
      recovered_returns fi _ hfid]
    refine ⟨(ih his1 _).1, ?_, ?_⟩
    · rw [(ih his1 _).2.1]
      simp [responseCalls_append, responseCalls, responseCalls_recovered]
      rw [← List.get?_eq_getElem?, hfi]
    · rw [(ih his1 _).2.2]
      simp [requestCalls_append, requestCalls, requestCalls_recovered]

/-- The response phase over filters whose `Id()` returns: it returns, whatever the
operations of the filters do, and calls the `Response` operation of every filter
once, in the reverse of the order of the list. -/
theorem applyFiltersToResponse_of_idReturns (f : List Filter) (st : State)
    (hid : ∀ fi ∈ f, fi.idReturns = true) :
    (applyFiltersToResponse f st).2 = Completion.returned ∧
    responseCalls (applyFiltersToResponse f st).1.trace = responseCalls st.trace ++ f.reverse ∧
    requestCalls (applyFiltersToResponse f st).1.trace = requestCalls st.trace := by
  have h := applyFiltersToResponseLoop_of_idReturns f (List.range f.length)
    (fun i hi => List.mem_range.mp hi) hid st
  refine ⟨h.1, ?_, h.2.2⟩
  have h2 := h.2.1
  rw [range_map_get?_reverse, ← List.map_append] at h2
  exact List.map_injective_iff.mpr (Option.some_injective _) h2

/-! ## The claims on the filter chain -/

/-- C1 at a failing input: in the list of `sampleFilter`, `brokenFilter` and
`plainFilter` the second filter panics in its operation and again in `Id()`, which
the deferred function of `applyFilterSafe` calls unguarded. The request phase calls
the first two filters and panics, the response phase calls the last two and panics:
the response calls are not the reverse of the request calls, neither phase calls
the whole list, and `ServeHTTP` panics in the request phase without reaching the
response phase. -/
theorem C1_phases_at_broken_filter :
    (applyFiltersToRequest [sampleFilter, brokenFilter, plainFilter] sampleState).2 =
      Completion.panicked (some "id boom") ∧
    requestCalls (applyFiltersToRequest [sampleFilter, brokenFilter, plainFilter]
      sampleState).1.trace = [sampleFilter, brokenFilter] ∧
    (applyFiltersToResponse [sampleFilter, brokenFilter, plainFilter] sampleState).2 =
      Completion.panicked (some "id boom") ∧
    responseCalls (applyFiltersToResponse [sampleFilter, brokenFilter, plainFilter]
      sampleState).1.trace = [plainFilter, brokenFilter] ∧
    responseCalls (applyFiltersToResponse [sampleFilter, brokenFilter, plainFilter]
        sampleState).1.trace ≠
      (requestCalls (applyFiltersToRequest [sampleFilter, brokenFilter, plainFilter]
        sampleState).1.trace).reverse ∧
    (ServeHTTP sampleLib 5 brokenProxy sampleWriter sampleRequest).exit = Exit.panicked ∧
    requestCalls (ServeHTTP sampleLib 5 brokenProxy sampleWriter sampleRequest).st.trace =
      [sampleFilter, brokenFilter] ∧
    responseCalls (ServeHTTP sampleLib 5 brokenProxy sampleWriter sampleRequest).st.trace =
      [] := by
  refine ⟨rfl, rfl, rfl, rfl, ?_, rfl, rfl, rfl⟩
  intro h
  have h1 := congrArg (List.map Filter.idReturns) h
  revert h1
  decide

/-- C2 at a failing input: in the list of `plainFilter`, `brokenFilter` and
`sampleFilter` the second filter invoked in the request phase panics with `boom`;
the deferred function of `applyFilterSafe` recovers that panic and calls `Id()`,
which panics with `id boom`; this panic leaves `applyFilterSafe` and the phase, and
the filter after it is not called. The same happens in the response phase, where
the second filter invoked is again `brokenFilter`. -/
theorem C2_fault_escapes_at_broken_filter :
    (brokenFilter.Request
        (applyFiltersToRequest [plainFilter] sampleState).1.ctx).2 =
      Completion.panicked (some "boom") ∧
    (applyFilterSafe brokenFilter (callRequest brokenFilter)
        (applyFiltersToRequest [plainFilter] sampleState).1).2 =
      Completion.panicked (some "id boom") ∧
    (applyFiltersToRequest [plainFilter, brokenFilter, sampleFilter] sampleState).2 =
      Completion.panicked (some "id boom") ∧
    requestCalls (applyFiltersToRequest [plainFilter, brokenFilter, sampleFilter]
      sampleState).1.trace = [plainFilter, brokenFilter] ∧
    (applyFiltersToResponse [plainFilter, brokenFilter, sampleFilter] sampleState).2 =
      Completion.panicked (some "id boom") ∧
    responseCalls (applyFiltersToResponse [plainFilter, brokenFilter, sampleFilter]
      sampleState).1.trace = [sampleFilter, brokenFilter] :=
  ⟨rfl, rfl, rfl, rfl, rfl, rfl⟩
/-! ## Lemmas on `copyStream` -/

/-- The slice `b[:l]` after a read of `l` bytes into `b` holds these bytes. -/
theorem buffer_take (data b : List Byte) :
    (data ++ b.drop data.length).take data.length = data := by
  simp

/-- One round of the loop: it ends as `lastIteration` says, or goes on. -/
theorem copyStreamLoop_succ (dst : Writer) (src : Reader) (fuel i : Nat) :
    copyStreamLoop dst src (fuel + 1) i =
      match lastIteration dst src i with
      | some r => some r
      | none =>
        match copyStreamLoop dst src fuel (i + 1) with
        | none => none
        | some (e, tr) => some (e, iteration (src i).data ++ tr) := by
  simp only [copyStreamLoop, lastIteration, buffer_take, iteration]
  by_cases h1 : (src i).rerr ≠ none ∧ (src i).rerr ≠ some GoError.EOF
  · rw [if_pos h1, if_pos h1]
  · rw [if_neg h1, if_neg h1]
    by_cases h2 : dst i (src i).data ≠ none
    · rw [if_pos h2, if_pos h2]
    · rw [if_neg h2, if_neg h2]
      have h2n : dst i (src i).data = none := not_not.mp h2
      by_cases h3 : (src i).rerr = some GoError.EOF
      · rw [if_pos h3, if_pos h3, h2n]
      · rw [if_neg h3, if_neg h3]
        have h3n : (src i).rerr = none := by
          by_contra hne
          exact h1 ⟨hne, h3⟩
        simp only [h2n, h3n, List.cons_append, List.nil_append]

/-- The loop ends in iteration `i + cnt` when the iterations before go on and the
fuel reaches it. -/
theorem copyStreamLoop_ends (dst : Writer) (src : Reader) (cnt : Nat) :
    ∀ (i fuel : Nat) (r : Option GoError × List IOEvent),
      (∀ j, j < cnt → lastIteration dst src (i + j) = none) →
      lastIteration dst src (i + cnt) = some r → cnt < fuel →
      copyStreamLoop dst src fuel i = some (r.1, iterations src i cnt ++ r.2) := by
  induction cnt with
  | zero =>
    intro i fuel r _ hlast hfuel
    obtain ⟨f, rfl⟩ : ∃ f, fuel = f + 1 := ⟨fuel - 1, by omega⟩
    rw [copyStreamLoop_succ]
    simp only [Nat.add_zero] at hlast
    simp [hlast, iterations]
  | succ cnt ih =>
    intro i fuel r hgo hlast hfuel
    obtain ⟨f, rfl⟩ : ∃ f, fuel = f + 1 := ⟨fuel - 1, by omega⟩
    rw [copyStreamLoop_succ]
    have h0 : lastIteration dst src i = none := by simpa using hgo 0 (by omega)
    have hrec := ih (i + 1) f r
      (fun j hj => by
        have := hgo (j + 1) (by omega)
        rwa [show i + (j + 1) = i + 1 + j by omega] at this)
      (by rwa [show i + (cnt + 1) = i + 1 + cnt by omega] at hlast) (by omega)
    simp [h0, hrec, iterations]

/-- The loop does not return while its iterations go on. -/
theorem copyStreamLoop_goes_on (dst : Writer) (src : Reader) (fuel : Nat) :
    ∀ i, (∀ j, j < fuel → lastIteration dst src (i + j) = none) →
      copyStreamLoop dst src fuel i = none := by
  induction fuel with
  | zero => intro i _; rfl
  | succ fuel ih =>
    intro i hgo
    rw [copyStreamLoop_succ]
    have h0 : lastIteration dst src i = none := by simpa using hgo 0 (by omega)
    have hrec := ih (i + 1) (fun j hj => by
      have := hgo (j + 1) (by omega)
      rwa [show i + (j + 1) = i + 1 + j by omega] at this)
    simp [h0, hrec]

/-- A loop that returns ended in some iteration that the fuel reached. -/
theorem copyStreamLoop_returns (dst : Writer) (src : Reader) (fuel : Nat) :
    ∀ (i : Nat) (e : Option GoError) (tr : List IOEvent),
      copyStreamLoop dst src fuel i = some (e, tr) →
      ∃ cnt last, cnt < fuel ∧ (∀ j, j < cnt → lastIteration dst src (i + j) = none) ∧
        lastIteration dst src (i + cnt) = some (e, last) ∧
        tr = iterations src i cnt ++ last := by
  induction fuel with
  | zero => intro i e tr h; simp [copyStreamLoop] at h
  | succ fuel ih =>
    intro i e tr h
    rw [copyStreamLoop_succ] at h
    rcases hl : lastIteration dst src i with _ | r
    · rw [hl] at h
      simp only at h
      rcases hc : copyStreamLoop dst src fuel (i + 1) with _ | ⟨e1, tr1⟩
      · rw [hc] at h; simp at h
      · rw [hc] at h
        simp only [Option.some.injEq, Prod.mk.injEq] at h
        obtain ⟨rfl, rfl⟩ := h
        obtain ⟨cnt, last, h1, h2, h3, h4⟩ := ih (i + 1) e1 tr1 hc
        refine ⟨cnt + 1, last, by omega, ?_, ?_, ?_⟩
        · intro j hj
          rcases j with _ | j
          · simpa using hl
          · have := h2 j (by omega)
            rwa [show i + 1 + j = i + (j + 1) by omega] at this
        · rwa [show i + 1 + cnt = i + (cnt + 1) by omega] at h3
        · simp [iterations, h4]
    · rw [hl] at h
      simp only [Option.some.injEq] at h
      subst h
      exact ⟨0, tr, by omega, by intro j hj; omega, by simpa using hl, by simp [iterations]⟩

theorem delivered_succ (src : Reader) (cnt : Nat) :
    ∀ i, delivered src i (cnt + 1) = delivered src i cnt ++ (src (i + cnt)).data := by
  induction cnt with
  | zero => intro i; simp [delivered]
  | succ cnt ih =>
    intro i
    rw [delivered, ih (i + 1), delivered, List.append_assoc,
      show i + 1 + cnt = i + (cnt + 1) by omega]

theorem bodyBytes_eq_delivered (src : Reader) (n : Nat) :
    bodyBytes src n = delivered src 0 (n + 1) := by
  induction n with
  | zero => simp [bodyBytes, delivered]
  | succ n ih => rw [bodyBytes, ih, delivered_succ src (n + 1) 0, Nat.zero_add]

theorem writtenChunks_iterations (src : Reader) (cnt : Nat) :
    ∀ (i : Nat) (tr : List IOEvent),
      (writtenChunks (iterations src i cnt ++ tr)).flatten =
        delivered src i cnt ++ (writtenChunks tr).flatten := by
  induction cnt with
  | zero => intro i tr; simp [iterations, delivered]
  | succ cnt ih =>
    intro i tr
    simp [iterations, iteration, delivered, writtenChunks, ih]

theorem writtenChunks_iterations_list (src : Reader) (cnt : Nat) :
    ∀ (i : Nat) (tr : List IOEvent),
      writtenChunks (iterations src i cnt ++ tr) =
        (List.range cnt).map (fun j => (src (i + j)).data) ++ writtenChunks tr := by
  induction cnt with
  | zero => intro i tr; simp [iterations]
  | succ cnt ih =>
    intro i tr
    rw [List.range_succ_eq_map]
    simp [iterations, iteration, writtenChunks, ih, Function.comp_def, Nat.add_assoc,
      Nat.add_comm 1]

theorem bytesWritten_iterations (src : Reader) (cnt : Nat) :
    ∀ (i : Nat) (tr : List IOEvent),
      bytesWritten (iterations src i cnt ++ tr) = delivered src i cnt ++ bytesWritten tr := by
  induction cnt with
  | zero => intro i tr; simp [iterations, delivered]
  | succ cnt ih =>
    intro i tr
    simp [iterations, iteration, delivered, bytesWritten, ih]

theorem bytesRead_iterations (src : Reader) (cnt : Nat) :
    ∀ (i : Nat) (tr : List IOEvent),
      bytesRead (iterations src i cnt ++ tr) = delivered src i cnt ++ bytesRead tr := by
  induction cnt with
  | zero => intro i tr; simp [iterations, delivered]
  | succ cnt ih =>
    intro i tr
    simp [iterations, iteration, delivered, bytesRead, ih]

theorem flushCount_iterations (src : Reader) (cnt : Nat) :
    ∀ (i : Nat) (tr : List IOEvent),
      flushCount (iterations src i cnt ++ tr) = cnt + flushCount tr := by
  induction cnt with
  | zero => intro i tr; simp [iterations]
  | succ cnt ih =>
    intro i tr
    have h := ih (i + 1) tr
    simp only [flushCount] at h ⊢
    simp [iterations, iteration, h]
    omega

theorem writeCount_iterations (src : Reader) (cnt : Nat) :
    ∀ (i : Nat) (tr : List IOEvent),
      writeCount (iterations src i cnt ++ tr) = cnt + writeCount tr := by
  induction cnt with
  | zero => intro i tr; simp [iterations]
  | succ cnt ih =>
    intro i tr
    have h := ih (i + 1) tr
    simp only [writeCount] at h ⊢
    simp [iterations, iteration, writtenChunks, h]
    omega

theorem flushedAfterEachWrite_iterations (src : Reader) (cnt : Nat) :
    ∀ (i : Nat) (tr : List IOEvent),
      flushedAfterEachWrite (iterations src i cnt ++ tr) = flushedAfterEachWrite tr := by
  induction cnt with
  | zero => intro i tr; simp [iterations]
  | succ cnt ih =>
    intro i tr
    simp [iterations, iteration, flushedAfterEachWrite, ih]

/-- The iterations of a body that ends at read `n`, with writes that succeed: the
loop goes on before `n` and returns nil in iteration `n`. -/
theorem lastIteration_of_endsAt (dst : Writer) (src : Reader) (n : Nat)
    (he : endsAt src n) (hw : writesSucceed dst src n) :
    (∀ j, j < n → lastIteration dst src (0 + j) = none) ∧
    lastIteration dst src (0 + n) =
      some (none, [IOEvent.read (src n).data (some GoError.EOF),
        IOEvent.write (src n).data none, IOEvent.flush]) := by
  refine ⟨?_, ?_⟩
  · intro j hj
    simp [lastIteration, he.1 j hj, hw j (by omega)]
  · simp [lastIteration, he.2, hw n (by omega)]

/-! ## The claims on `copyStream` -/

/-- C3: for every body, that is a reader whose reads (each of at most 8192 bytes, by
the type of `ReadResult`) return no error before read `n` and `io.EOF` at read `n`,
and every writer that takes the chunks, `copyStream` returns nil once the fuel
reaches read `n`, and the chunks it passed to `Write` are, one by one and in order,
the byte lists that the reads delivered: their concatenation is the body. -/
theorem C3_copyStream_writes_the_body_exactly (dst : Writer) (src : Reader) (n fuel : Nat)
    (hbody : endsAt src n) (hw : writesSucceed dst src n) (hfuel : n < fuel) :
    ∃ tr, copyStream fuel dst src = some (none, tr) ∧
      writtenChunks tr = (List.range (n + 1)).map (fun i => (src i).data) ∧
      (writtenChunks tr).flatten = bodyBytes src n ∧
      bytesWritten tr = bodyBytes src n ∧
      bytesRead tr = bodyBytes src n := by
  obtain ⟨hgo, hlast⟩ := lastIteration_of_endsAt dst src n hbody hw
  have h := copyStreamLoop_ends dst src n 0 fuel _ hgo hlast hfuel
  refine ⟨_, h, ?_, ?_, ?_, ?_⟩
  · rw [writtenChunks_iterations_list, List.range_succ]
    simp [writtenChunks]
  · rw [writtenChunks_iterations, bodyBytes_eq_delivered, delivered_succ]
    simp [writtenChunks]
  · rw [bytesWritten_iterations, bodyBytes_eq_delivered, delivered_succ]
    simp [bytesWritten]
  · rw [bytesRead_iterations, bodyBytes_eq_delivered, delivered_succ]
    simp [bytesRead]

/-- Witness of C3: the sample body of two bytes, with a writer that takes
everything. -/
theorem C3_witness :
    endsAt sampleBody 1 ∧ writesSucceed (fun _ _ => none) sampleBody 1 ∧ 1 < 2 ∧
    ∃ tr, copyStream 2 (fun _ _ => none) sampleBody = some (none, tr) ∧
      writtenChunks tr = (List.range (1 + 1)).map (fun i => (sampleBody i).data) ∧
      (writtenChunks tr).flatten = bodyBytes sampleBody 1 ∧
      bytesWritten tr = bodyBytes sampleBody 1 ∧
      bytesRead tr = bodyBytes sampleBody 1 :=
  ⟨by decide, by decide, by decide,
    C3_copyStream_writes_the_body_exactly (fun _ _ => none) sampleBody 1 2
      (by decide) (by decide) (by decide)⟩

theorem delivered_length_full (src : Reader) (cnt : Nat) :
    ∀ i, (∀ j, j < cnt → (src (i + j)).data.length = proxyBufferSize) →
      (delivered src i cnt).length = cnt * proxyBufferSize := by
  induction cnt with
  | zero => intro i _; simp [delivered]
  | succ cnt ih =>
    intro i h
    have h0 : (src i).data.length = proxyBufferSize := by simpa using h 0 (by omega)
    have hrec := ih (i + 1) (fun j hj => by
      have := h (j + 1) (by omega)
      rwa [show i + (j + 1) = i + 1 + j by omega] at this)
    rw [delivered, List.length_append, h0, hrec]
    ring

/-- The size of a body whose reader fills the buffer, rounded up to buffers, is the
number of its reads that deliver bytes. -/
theorem ceilDiv_of_fillsBuffer (src : Reader) (n : Nat) (hf : fillsBuffer src n) :
    ceilDiv (bodyBytes src n).length proxyBufferSize = n := by
  obtain ⟨hlast, hfull⟩ := hf
  rcases n with _ | m
  · simp [bodyBytes, hlast, ceilDiv, proxyBufferSize]
  · rw [bodyBytes_eq_delivered, delivered_succ, delivered_succ, Nat.zero_add, Nat.zero_add,
      hlast, List.append_nil, List.length_append,
      delivered_length_full src m 0 (fun j hj => by
        rw [Nat.zero_add]
        exact (hfull j (by omega)).1 (by omega))]
    have h1 : 0 < (src m).data.length := (hfull m (by omega)).2 rfl
    have h2 : (src m).data.length ≤ proxyBufferSize := (src m).fits
    simp only [ceilDiv, proxyBufferSize] at *
    omega

/-- Counterexample to C4: a body of two bytes that is delivered in two reads of one
byte and an empty read with `io.EOF` is flushed three times, and one that is
delivered together with `io.EOF` is flushed once, while `ceil(2/8192) + 1 = 2`. -/
theorem C4_counterexample :
    endsAt slowBody 2 ∧ (bodyBytes slowBody 2).length = 2 ∧
    (copyStream 3 sampleSink slowBody).map (fun r => (r.1, flushCount r.2)) = some (none, 3) ∧
    endsAt eagerBody 0 ∧ (bodyBytes eagerBody 0).length = 2 ∧
    (copyStream 3 sampleSink eagerBody).map (fun r => (r.1, flushCount r.2)) = some (none, 1) ∧
    ceilDiv 2 proxyBufferSize + 1 = 2 := by
  decide

/-- C4, amended: for every body that ends at read `n` and every writer that takes
the chunks, `copyStream` returns nil after `n + 1` reads, `n + 1` writes and
`n + 1` flushes, each write followed at once by one flush; and if the reader fills
the buffer of 8192 bytes in every read before the last one that delivers bytes and
reports `io.EOF` in an empty read of its own, the number of flushes is
`ceil(S / 8192) + 1` for the body size `S`. -/
theorem C4_flushes_once_per_read (dst : Writer) (src : Reader) (n fuel : Nat)
    (hbody : endsAt src n) (hw : writesSucceed dst src n) (hfuel : n < fuel) :
    ∃ tr, copyStream fuel dst src = some (none, tr) ∧
      flushCount tr = n + 1 ∧ writeCount tr = n + 1 ∧ flushedAfterEachWrite tr = true ∧
      (fillsBuffer src n →
        flushCount tr = ceilDiv (bodyBytes src n).length proxyBufferSize + 1) := by
  obtain ⟨hgo, hlast⟩ := lastIteration_of_endsAt dst src n hbody hw
  have h := copyStreamLoop_ends dst src n 0 fuel _ hgo hlast hfuel
  have hc : flushCount (iterations src 0 n ++ [IOEvent.read (src n).data (some GoError.EOF),
      IOEvent.write (src n).data none, IOEvent.flush]) = n + 1 := by
    rw [flushCount_iterations]
    simp [flushCount]
  refine ⟨_, h, hc, ?_, ?_, ?_⟩
  · rw [writeCount_iterations]
    simp [writeCount, writtenChunks]
  · rw [flushedAfterEachWrite_iterations]
    simp [flushedAfterEachWrite]
  · intro hf
    rw [hc, ceilDiv_of_fillsBuffer src n hf]

/-- Witness of C4, amended: the sample body, whose only read with bytes is the last
one before the empty read with `io.EOF`. -/
theorem C4_witness :
    endsAt sampleBody 1 ∧ writesSucceed sampleSink sampleBody 1 ∧ 1 < 2 ∧
    fillsBuffer sampleBody 1 ∧
    ∃ tr, copyStream 2 sampleSink sampleBody = some (none, tr) ∧
      flushCount tr = 1 + 1 ∧ writeCount tr = 1 + 1 ∧ flushedAfterEachWrite tr = true ∧
      (fillsBuffer sampleBody 1 →
        flushCount tr = ceilDiv (bodyBytes sampleBody 1).length proxyBufferSize + 1) :=
  ⟨by decide, by decide, by decide, by decide,
    C4_flushes_once_per_read sampleSink sampleBody 1 2 (by decide) (by decide) (by decide)⟩

theorem lastIteration_eq_none_iff (dst : Writer) (src : Reader) (n : Nat) :
    lastIteration dst src n = none ↔ (src n).rerr = none ∧ dst n (src n).data = none := by
  unfold lastIteration
  constructor
  · intro h
    simp only at h
    split_ifs at h with h1 h2 h3
    have hw : dst n (src n).data = none := not_not.mp h2
    refine ⟨?_, hw⟩
    by_contra hne
    exact h1 ⟨hne, h3⟩
  · rintro ⟨h1, h2⟩
    simp [h1, h2]

theorem lastIteration_eq_nil (dst : Writer) (src : Reader) (n : Nat) (last : List IOEvent)
    (h : lastIteration dst src n = some (none, last)) :
    (src n).rerr = some GoError.EOF ∧ dst n (src n).data = none := by
  unfold lastIteration at h
  simp only at h
  split_ifs at h with h1 h2 h3
  · simp only [Option.some.injEq, Prod.mk.injEq] at h
    exact absurd h.1 h1.1
  · simp only [Option.some.injEq, Prod.mk.injEq] at h
    exact absurd h.1 h2
  · exact ⟨h3, not_not.mp h2⟩

theorem lastIteration_none_of_cleanBefore (dst : Writer) (src : Reader) (n : Nat)
    (hc : cleanBefore dst src n) : ∀ j, j < n → lastIteration dst src (0 + j) = none := by
  intro j hj
  rw [Nat.zero_add, lastIteration_eq_none_iff]
  exact hc j hj

/-- The bytes written are a prefix of the bytes read, however the loop ends. -/
theorem bytesWritten_isPrefix (dst : Writer) (src : Reader) (fuel : Nat) (e : Option GoError)
    (tr : List IOEvent) (h : copyStream fuel dst src = some (e, tr)) :
    bytesWritten tr <+: bytesRead tr := by
  obtain ⟨cnt, last, -, -, hlast, rfl⟩ := copyStreamLoop_returns dst src fuel 0 e tr h
  rw [bytesWritten_iterations, bytesRead_iterations]
  refine (List.prefix_append_right_inj _).mpr ?_
  unfold lastIteration at hlast
  simp only at hlast
  split_ifs at hlast with h1 h2 h3
  · simp only [Option.some.injEq, Prod.mk.injEq] at hlast
    obtain ⟨-, rfl⟩ := hlast
    simp [bytesWritten, bytesRead]
  · simp only [Option.some.injEq, Prod.mk.injEq] at hlast
    obtain ⟨-, rfl⟩ := hlast
    rcases hw : dst (0 + cnt) (src (0 + cnt)).data with _ | err
    · exact absurd hw h2
    · simp [bytesWritten, bytesRead]
  · simp only [Option.some.injEq, Prod.mk.injEq] at hlast
    obtain ⟨-, rfl⟩ := hlast
    simp [bytesWritten, bytesRead]

/-- C10: `copyStream` returns nil exactly when, within the fuel, some read reports
`io.EOF` after reads without error and every write up to the one of that read
succeeded. If, after iterations without error, a read returns an error other than
`io.EOF`, that error is returned and the events end with that read: no `Write` and
no `Flush` for it, and nothing afterwards. If instead the `Write` of an iteration
returns an error, that error is returned and the events end with that write: no
`Flush` for the chunk and no further `Read`, `Write` or `Flush`. However the loop
ends, the bytes written are a prefix of the bytes read. -/
theorem C10_copyStream_ends_on_end_of_stream_or_error (dst : Writer) (src : Reader)
    (fuel : Nat) :
    ((∃ tr, copyStream fuel dst src = some (none, tr)) ↔
      ∃ n, n < fuel ∧ endsAt src n ∧ writesSucceed dst src n) ∧
    (∀ (n : Nat) (e : GoError), n < fuel → cleanBefore dst src n →
      (src n).rerr = some e → e ≠ GoError.EOF →
      copyStream fuel dst src =
        some (some e, iterations src 0 n ++ [IOEvent.read (src n).data (some e)])) ∧
    (∀ (n : Nat) (e : GoError), n < fuel → cleanBefore dst src n →
      ((src n).rerr = none ∨ (src n).rerr = some GoError.EOF) →
      dst n (src n).data = some e →
      copyStream fuel dst src =
        some (some e, iterations src 0 n ++
          [IOEvent.read (src n).data (src n).rerr, IOEvent.write (src n).data (some e)])) ∧
    (∀ (e : Option GoError) (tr : List IOEvent), copyStream fuel dst src = some (e, tr) →
      bytesWritten tr <+: bytesRead tr) := by
  refine ⟨⟨?_, ?_⟩, ?_, ?_, ?_⟩
  · rintro ⟨tr, h⟩
    obtain ⟨cnt, last, hlt, hgo, hlast, -⟩ := copyStreamLoop_returns dst src fuel 0 none tr h
    rw [Nat.zero_add] at hlast
    obtain ⟨h1, h2⟩ := lastIteration_eq_nil dst src cnt last hlast
    have hclean : ∀ j, j < cnt → (src j).rerr = none ∧ dst j (src j).data = none := by
      intro j hj
      have := hgo j hj
      rwa [Nat.zero_add, lastIteration_eq_none_iff] at this
    refine ⟨cnt, hlt, ⟨fun i hi => (hclean i hi).1, h1⟩, ?_⟩
    intro i hi
    rcases Nat.lt_or_eq_of_le hi with hi1 | rfl
    · exact (hclean i hi1).2
    · exact h2
  · rintro ⟨n, hlt, he, hw⟩
    obtain ⟨hgo, hlast⟩ := lastIteration_of_endsAt dst src n he hw
    exact ⟨_, copyStreamLoop_ends dst src n 0 fuel _ hgo hlast hlt⟩
  · intro n e hlt hc hr hne
    have hlast : lastIteration dst src (0 + n) =
        some (some e, [IOEvent.read (src n).data (some e)]) := by
      simp [lastIteration, hr, hne]
    exact copyStreamLoop_ends dst src n 0 fuel _
      (lastIteration_none_of_cleanBefore dst src n hc) hlast hlt
  · intro n e hlt hc hr hw
    have hlast : lastIteration dst src (0 + n) =
        some (some e, [IOEvent.read (src n).data (src n).rerr,
          IOEvent.write (src n).data (some e)]) := by
      rcases hr with hr | hr <;> simp [lastIteration, hr, hw]
    exact copyStreamLoop_ends dst src n 0 fuel _
      (lastIteration_none_of_cleanBefore dst src n hc) hlast hlt
  · intro e tr h
    exact bytesWritten_isPrefix dst src fuel e tr h

/-- Witness of C10: a reader whose second read fails, and a writer whose second
write fails. -/
theorem C10_witness :
    (1 < 3 ∧ cleanBefore sampleSink brokenBody 1 ∧
      (brokenBody 1).rerr = some (GoError.err "connection reset") ∧
      GoError.err "connection reset" ≠ GoError.EOF ∧
      copyStream 3 sampleSink brokenBody =
        some (some (GoError.err "connection reset"),
          iterations brokenBody 0 1 ++
            [IOEvent.read (brokenBody 1).data (some (GoError.err "connection reset"))])) ∧
    (1 < 3 ∧ cleanBefore brokenSink slowBody 1 ∧
      ((slowBody 1).rerr = none ∨ (slowBody 1).rerr = some GoError.EOF) ∧
      brokenSink 1 (slowBody 1).data = some (GoError.err "broken pipe") ∧
      copyStream 3 brokenSink slowBody =
        some (some (GoError.err "broken pipe"),
          iterations slowBody 0 1 ++
            [IOEvent.read (slowBody 1).data (slowBody 1).rerr,
              IOEvent.write (slowBody 1).data (some (GoError.err "broken pipe"))])) :=
  ⟨⟨by decide, by decide, by decide, by decide,
      (C10_copyStream_ends_on_end_of_stream_or_error sampleSink brokenBody 3).2.1 1
        (GoError.err "connection reset") (by decide) (by decide) (by decide) (by decide)⟩,
    ⟨by decide, by decide, by decide, by decide,
      (C10_copyStream_ends_on_end_of_stream_or_error brokenSink slowBody 3).2.2.1 1
        (GoError.err "broken pipe") (by decide) (by decide) (by decide) (by decide)⟩⟩

/-! ## Lemmas on headers -/

theorem GoMap.get_set_self {V : Type} (m : GoMap V) (k : String) (v : V) :
    GoMap.get (GoMap.set m k v) k = some v := by
  induction m with
  | nil => simp [GoMap.set, GoMap.get]
  | cons e m ih =>
    obtain ⟨k1, v1⟩ := e
    by_cases h : k1 = k
    · simp [GoMap.set, GoMap.get, h]
    · simp only [GoMap.set, if_neg h]
      simp only [GoMap.get] at ih ⊢
      simp [List.find?_cons, h, ih]

theorem GoMap.get_set_other {V : Type} (m : GoMap V) (k k2 : String) (v : V) (hne : k2 ≠ k) :
    GoMap.get (GoMap.set m k v) k2 = GoMap.get m k2 := by
  induction m with
  | nil => simp [GoMap.set, GoMap.get, List.find?_cons, Ne.symm hne]
  | cons e m ih =>
    obtain ⟨k1, v1⟩ := e
    by_cases h : k1 = k
    · subst h
      simp [GoMap.set, GoMap.get, List.find?_cons, Ne.symm hne]
    · simp only [GoMap.set, if_neg h]
      simp only [GoMap.get] at ih ⊢
      by_cases h2 : k1 = k2
      · simp [List.find?_cons, h2]
      · simp [List.find?_cons, h2, ih]

theorem copyHeader_cons {V : Type} (dst : GoMap V) (e : String × V) (src : GoMap V) :
    copyHeader dst (e :: src) = copyHeader (GoMap.set dst (CanonicalHeaderKey e.1) e.2) src := by
  simp [copyHeader]

/-- The copy leaves the value of a key alone that is the canonical form of no key of
the source. -/
theorem copyHeader_get_other {V : Type} (src : GoMap V) :
    ∀ (dst : GoMap V) (K : String), (∀ k ∈ GoMap.keys src, CanonicalHeaderKey k ≠ K) →
      GoMap.get (copyHeader dst src) K = GoMap.get dst K := by
  induction src with
  | nil => intro dst K _; simp [copyHeader]
  | cons e src ih =>
    intro dst K h
    rw [copyHeader_cons, ih _ K (fun k hk => h k (by simp [GoMap.keys] at hk ⊢; exact Or.inr hk))]
    exact GoMap.get_set_other _ _ _ _
      (Ne.symm (h e.1 (by simp [GoMap.keys])))

/-- The copy of a map whose keys have different canonical forms holds, for the
canonical form of every key, the value of that key. -/
theorem copyHeader_get {V : Type} (src : GoMap V) :
    ∀ (dst : GoMap V), (GoMap.keys src).Nodup →
      (∀ k1 ∈ GoMap.keys src, ∀ k2 ∈ GoMap.keys src,
        CanonicalHeaderKey k1 = CanonicalHeaderKey k2 → k1 = k2) →
      ∀ k ∈ GoMap.keys src,
        GoMap.get (copyHeader dst src) (CanonicalHeaderKey k) = GoMap.get src k := by
  induction src with
  | nil => intro dst _ _ k hk; simp [GoMap.keys] at hk
  | cons e src ih =>
    intro dst hnd hinj k hk
    obtain ⟨k0, v0⟩ := e
    simp only [GoMap.keys, List.map_cons, List.nodup_cons, List.mem_cons] at hnd hk hinj
    rw [copyHeader_cons]
    rcases hk with rfl | hk
    · rw [copyHeader_get_other src _ _ (fun k2 hk2 hc => by
        have := hinj k2 (Or.inr hk2) k (Or.inl rfl) hc
        subst this
        exact hnd.1 hk2)]
      rw [GoMap.get_set_self]
      simp [GoMap.get]
    · have hne : k0 ≠ k := by
        rintro rfl
        exact hnd.1 hk
      rw [ih _ hnd.2 (fun k1 h1 k2 h2 hc => hinj k1 (Or.inr h1) k2 (Or.inr h2) hc) k hk]
      simp [GoMap.get, List.find?_cons, hne]

theorem mapRequest_header (lib : Stdlib) (r : Request) (b : Option Backend) (rr : Request)
    (h : (mapRequest lib r b).1 = Except.ok rr) : rr.Header = cloneHeader r.Header := by
  unfold mapRequest at h
  split at h
  · simp at h
  · split at h
    · simp at h
    · simp only [Except.ok.injEq] at h
      rw [← h]

/-! ## The claims on headers -/

/-- Counterexample to C5: of two keys that differ only in letter case, `cloneHeader`
keeps the value list of the one that `range` visits last and drops the values of
the other, in whichever order the keys are visited; `mapRequest` installs that
clone. -/
theorem C5_counterexample :
    GoMap.get mixedCaseHeader "x-a" = some ["1"] ∧
    CanonicalHeaderKey "x-a" = "X-A" ∧
    cloneHeader mixedCaseHeader = [("X-A", ["2"])] ∧
    ¬ containsAll mixedCaseHeader (cloneHeader mixedCaseHeader) ∧
    cloneHeader mixedCaseHeaderSwapped = [("X-A", ["1"])] ∧
    ¬ containsAll mixedCaseHeaderSwapped (cloneHeader mixedCaseHeaderSwapped) ∧
    (mapRequest sampleLib { sampleRequest with Header := mixedCaseHeader }
        sampleRoute.Backend).1.toOption.map (fun rr => rr.Header) = some [("X-A", ["2"])] := by
  decide

/-- C5, amended: for every header collection `h` (a map, so without a repeated key)
in which no two keys have the same canonical form, whether or not its keys are in
canonical form, `cloneHeader h` holds for the canonical form of every key `k` of `h`
the value list `h[k]`, so that it contains every key/value pair of `h` under
case-insensitive key equality; and the header of the outbound request that
`mapRequest` builds is this clone. -/
theorem C5_clone_contains_every_pair (h : Header) (hnd : (GoMap.keys h).Nodup)
    (hinj : canonicalDistinct h) :
    (∀ k ∈ GoMap.keys h, GoMap.get (cloneHeader h) (CanonicalHeaderKey k) = GoMap.get h k) ∧
    containsAll h (cloneHeader h) ∧
    (∀ (lib : Stdlib) (r : Request) (b : Option Backend) (rr : Request),
      r.Header = h → (mapRequest lib r b).1 = Except.ok rr →
      rr.Header = cloneHeader h ∧ containsAll h rr.Header) := by
  have h1 : ∀ k ∈ GoMap.keys h,
      GoMap.get (cloneHeader h) (CanonicalHeaderKey k) = GoMap.get h k :=
    copyHeader_get h [] hnd hinj
  have h2 : containsAll h (cloneHeader h) := by
    intro k hk v hv
    rw [h1 k hk]
    exact hv
  refine ⟨h1, h2, ?_⟩
  intro lib r b rr hr hm
  have := mapRequest_header lib r b rr hm
  rw [hr] at this
  rw [this]
  exact ⟨rfl, h2⟩

/-- Witness of C5, amended: a header collection with a key in lower case. -/
theorem C5_witness :
    (GoMap.keys lowerCaseHeader).Nodup ∧ canonicalDistinct lowerCaseHeader ∧
    (∀ k ∈ GoMap.keys lowerCaseHeader,
      GoMap.get (cloneHeader lowerCaseHeader) (CanonicalHeaderKey k) =
        GoMap.get lowerCaseHeader k) ∧
    containsAll lowerCaseHeader (cloneHeader lowerCaseHeader) :=
  ⟨by decide, by decide,
    (C5_clone_contains_every_pair lowerCaseHeader (by decide) (by decide)).1,
    (C5_clone_contains_every_pair lowerCaseHeader (by decide) (by decide)).2.1⟩

theorem Memory.cloneHeader_fst (mem : Memory) (h : Nat) :
    (mem.cloneHeader h).1 =
      { maps := (mem.maps ++ [[]]).set mem.maps.length
          (copyHeader (List.getD (mem.maps ++ [[]]) mem.maps.length [])
            (List.getD (mem.maps ++ [[]]) h [])),
        arrays := mem.arrays } := rfl

theorem Memory.cloneHeader_snd (mem : Memory) (h : Nat) :
    (mem.cloneHeader h).2 = mem.maps.length := rfl

theorem Memory.view_congr (m1 m2 : Memory) (a b : Nat) (hm : m1.mapAt a = m2.mapAt b)
    (ha : m1.arrays = m2.arrays) : m1.view a = m2.view b := by
  unfold Memory.view Memory.elems
  rw [hm, ha]

theorem Memory.mapAt_set_other (maps : List (GoMap Slice)) (arrays : List (List String))
    (a b : Nat) (m : GoMap Slice) (hne : a ≠ b) :
    Memory.mapAt { maps := maps.set a m, arrays := arrays } b =
      Memory.mapAt { maps := maps, arrays := arrays } b := by
  simp [Memory.mapAt, List.getD_eq_getElem?_getD, List.getElem?_set_ne hne]

/-- A mutation of keys leaves the backing arrays alone, and the map objects at the
other addresses. -/
theorem Memory.mutate_keys (mem : Memory) (a b : Nat) (op : Mutation)
    (hm : op.inPlace = false) (hne : a ≠ b) :
    (mem.mutate a op).arrays = mem.arrays ∧ (mem.mutate a op).mapAt b = mem.mapAt b := by
  cases op with
  | assign k s =>
    exact ⟨rfl, Memory.mapAt_set_other mem.maps mem.arrays a b _ hne⟩
  | delete k =>
    exact ⟨rfl, Memory.mapAt_set_other mem.maps mem.arrays a b _ hne⟩
  | setElem k i x => simp [Mutation.inPlace] at hm

/-- Counterexample to C6: the clone shares the backing array of the value list of
`X-A` with the original, so that an element changed in place through the clone is
changed in the original, and one changed through the original is changed in the
clone. -/
theorem C6_counterexample :
    (sampleMemory.cloneHeader 0).2 = 1 ∧
    (sampleMemory.cloneHeader 0).1.view 0 = [("X-A", ["1"])] ∧
    (sampleMemory.cloneHeader 0).1.view 1 = [("X-A", ["1"])] ∧
    GoMap.get ((sampleMemory.cloneHeader 0).1.mapAt 1) "X-A" =
      GoMap.get ((sampleMemory.cloneHeader 0).1.mapAt 0) "X-A" ∧
    ((sampleMemory.cloneHeader 0).1.mutate 1 (Mutation.setElem "X-A" 0 "changed")).view 0 =
      [("X-A", ["changed"])] ∧
    ((sampleMemory.cloneHeader 0).1.mutate 0 (Mutation.setElem "X-A" 0 "changed")).view 1 =
      [("X-A", ["changed"])] := by
  decide

/-- C6, amended: `cloneHeader` makes a new map object and leaves the original as it
was; adding a key, deleting a key or replacing the value list of a key in the clone
leaves the original and every backing array unchanged, and the same mutations of
the original leave the clone unchanged. (The value lists themselves are the slices
of the original, assigned as they are.) -/
theorem C6_clone_is_a_new_map (mem : Memory) (h : Nat) (op : Mutation)
    (hh : h < mem.maps.length) (hop : op.inPlace = false) :
    (mem.cloneHeader h).2 ≠ h ∧
    (mem.cloneHeader h).1.view h = mem.view h ∧
    (mem.cloneHeader h).1.arrays = mem.arrays ∧
    ((mem.cloneHeader h).1.mutate (mem.cloneHeader h).2 op).view h =
      (mem.cloneHeader h).1.view h ∧
    ((mem.cloneHeader h).1.mutate (mem.cloneHeader h).2 op).arrays =
      (mem.cloneHeader h).1.arrays ∧
    ((mem.cloneHeader h).1.mutate h op).view (mem.cloneHeader h).2 =
      (mem.cloneHeader h).1.view (mem.cloneHeader h).2 ∧
    ((mem.cloneHeader h).1.mutate h op).arrays = (mem.cloneHeader h).1.arrays := by
  have hne : (mem.cloneHeader h).2 ≠ h := by
    rw [Memory.cloneHeader_snd]
    omega
  have h1 := Memory.mutate_keys (mem.cloneHeader h).1 (mem.cloneHeader h).2 h op hop hne
  have h2 := Memory.mutate_keys (mem.cloneHeader h).1 h (mem.cloneHeader h).2 op hop
    (Ne.symm hne)
  refine ⟨hne, ?_, rfl, ?_, h1.1, ?_, h2.1⟩
  · refine Memory.view_congr _ _ _ _ ?_ rfl
    rw [Memory.cloneHeader_fst, Memory.mapAt_set_other _ _ _ _ _ (by omega)]
    simp [Memory.mapAt, List.getD_eq_getElem?_getD, List.getElem?_append_left hh]
  · exact Memory.view_congr _ _ _ _ h1.2 h1.1
  · exact Memory.view_congr _ _ _ _ h2.2 h2.1

/-- Witness of C6, amended: a key is deleted from the clone of the sample header
collection. -/
theorem C6_witness :
    0 < sampleMemory.maps.length ∧ (Mutation.delete "X-A").inPlace = false ∧
    ((sampleMemory.cloneHeader 0).1.mutate (sampleMemory.cloneHeader 0).2
      (Mutation.delete "X-A")).view 0 = (sampleMemory.cloneHeader 0).1.view 0 :=
  ⟨by decide, by decide,
    (C6_clone_is_a_new_map sampleMemory 0 (Mutation.delete "X-A") (by decide)
      (by decide)).2.2.2.1⟩

/-! ## The claims on `ServeHTTP` -/

/-- Counterexample to C7: with nothing published to the proxy that `Make` created,
the handler does not complete with a failure response: it waits in the receive from
the settings channel and writes nothing. -/
theorem C7_counterexample :
    (Make sampleNet).settings.queue.length = 0 ∧
    (ServeHTTP sampleLib 5 (Make sampleNet) sampleWriter sampleRequest).exit = Exit.blocked ∧
    (ServeHTTP sampleLib 5 (Make sampleNet) sampleWriter sampleRequest).exit ≠ Exit.returned ∧
    statusWrites (ServeHTTP sampleLib 5 (Make sampleNet) sampleWriter sampleRequest).st.trace
      = [] ∧
    (ServeHTTP sampleLib 5 (Make sampleNet) sampleWriter sampleRequest).st.ctx.w.ops = [] := by
  decide

/-- The handler when the receive gives a nil snapshot. -/
theorem ServeHTTP_nil_settings (lib : Stdlib) (fuel : Nat) (p : proxy) (w : ResponseWriter)
    (r : Request) (ch : Chan (Option Settings)) (hs : p.settings.recv = some (none, ch)) :
    ServeHTTP lib fuel p w r =
      { exit := Exit.returned, p := { p with settings := ch },
        st := hterr (proxyError "missing settings")
          { ctx := { w := w, req := r, res := none }, trace := [] } } := by
  unfold ServeHTTP
  simp only [hs]

/-- C7, amended: if no settings snapshot has ever been published to the proxy that
`Make` created, `ServeHTTP` waits in the receive from the settings channel: it
writes nothing to the caller and attempts no route resolution, no filter call and
no round trip. A request fails with status 404 and the log line
`proxy: missing settings`, again without route resolution, filter call or round
trip, when the receive gives a nil snapshot, as from a closed channel. -/
theorem C7_missing_settings (lib : Stdlib) (fuel : Nat) (w : ResponseWriter) (r : Request) :
    (∀ net : Transport,
      (ServeHTTP lib fuel (Make net) w r).exit = Exit.blocked ∧
      (ServeHTTP lib fuel (Make net) w r).st.trace = [] ∧
      (ServeHTTP lib fuel (Make net) w r).st.ctx.w.ops = w.ops) ∧
    (∀ (p : proxy) (ch : Chan (Option Settings)), p.settings.recv = some (none, ch) →
      (ServeHTTP lib fuel p w r).exit = Exit.returned ∧
      (ServeHTTP lib fuel p w r).st.trace =
        [Event.httpError 404, Event.log "proxy: missing settings"] ∧
      (ServeHTTP lib fuel p w r).st.trace.any Event.isWork = false ∧
      (ServeHTTP lib fuel p w r).st.ctx.w.ops =
        w.ops ++ [WriterOp.WriteHeader 404, WriterOp.Write (stringBytes "Not Found\n")]) := by
  refine ⟨?_, ?_⟩
  · intro net
    exact ⟨rfl, rfl, rfl⟩
  · intro p ch h
    rw [ServeHTTP_nil_settings lib fuel p w r ch h]
    exact ⟨rfl, rfl, rfl, rfl⟩

/-- Witness of C7, amended: a proxy whose settings channel is closed. -/
theorem C7_witness :
    closedProxy.settings.recv = some (none, closedProxy.settings) ∧
    (ServeHTTP sampleLib 5 closedProxy sampleWriter sampleRequest).exit = Exit.returned ∧
    (ServeHTTP sampleLib 5 closedProxy sampleWriter sampleRequest).st.trace =
      [Event.httpError 404, Event.log "proxy: missing settings"] :=
  ⟨rfl,
    ((C7_missing_settings sampleLib 5 sampleWriter sampleRequest).2 closedProxy
      closedProxy.settings rfl).1,
    ((C7_missing_settings sampleLib 5 sampleWriter sampleRequest).2 closedProxy
      closedProxy.settings rfl).2.1⟩

/-- The handler when the resolution gives no route or an error. -/
theorem ServeHTTP_unrouted (lib : Stdlib) (fuel : Nat) (p : proxy) (w : ResponseWriter)
    (r : Request) (s : Settings) (ch : Chan (Option Settings))
    (hs : p.settings.recv = some (some s, ch))
    (hrt : (s.Route r).1 = none ∨ (s.Route r).2 ≠ none) :
    ServeHTTP lib fuel p w r =
      { exit := Exit.returned, p := { p with settings := ch },
        st := hterr (proxyError ("routing failed: " ++ r.URL ++ " " ++ fmtError (s.Route r).2))
          { ctx := { w := w, req := r, res := none }, trace := [Event.route] } } := by
  unfold ServeHTTP
  simp only [hs, List.nil_append]
  rcases hr : s.Route r with ⟨rt, err⟩
  rw [hr] at hrt
  simp only at hrt
  rcases rt with _ | rt
  · rfl
  · rcases err with _ | err
    · simp at hrt
    · rfl

/-- C8: for every request and every settings snapshot whose `Route` gives a nil
route or an error, also a route together with an error, `ServeHTTP` returns after
the route resolution with the failure response of `hterr` (status 404, once) and
the log line of the routing failure: no filter is called in either phase, no
outbound request is built and no round trip is attempted. -/
theorem C8_routing_failure (lib : Stdlib) (fuel : Nat) (p : proxy) (w : ResponseWriter)
    (r : Request) (s : Settings) (ch : Chan (Option Settings))
    (hs : p.settings.recv = some (some s, ch))
    (hrt : (s.Route r).1 = none ∨ (s.Route r).2 ≠ none) :
    (ServeHTTP lib fuel p w r).exit = Exit.returned ∧
    (ServeHTTP lib fuel p w r).st.trace =
      [Event.route, Event.httpError 404,
        Event.log ("proxy: routing failed: " ++ r.URL ++ " " ++ fmtError (s.Route r).2)] ∧
    statusWrites (ServeHTTP lib fuel p w r).st.trace = [404] ∧
    requestCalls (ServeHTTP lib fuel p w r).st.trace = [] ∧
    responseCalls (ServeHTTP lib fuel p w r).st.trace = [] ∧
    (ServeHTTP lib fuel p w r).st.trace.tail.any Event.isWork = false ∧
    (ServeHTTP lib fuel p w r).st.ctx.w.ops =
      w.ops ++ [WriterOp.WriteHeader 404, WriterOp.Write (stringBytes "Not Found\n")] := by
  rw [ServeHTTP_unrouted lib fuel p w r s ch hs hrt]
  exact ⟨rfl, rfl, rfl, rfl, rfl, rfl, rfl⟩

/-- Witness of C8: settings that return a route together with an error. -/
theorem C8_witness :
    failingProxy.settings.recv = some (some failingSettings, (Make sampleNet).settings) ∧
    ((failingSettings.Route sampleRequest).1 = none ∨
      (failingSettings.Route sampleRequest).2 ≠ none) ∧
    (ServeHTTP sampleLib 5 failingProxy sampleWriter sampleRequest).exit = Exit.returned ∧
    (ServeHTTP sampleLib 5 failingProxy sampleWriter sampleRequest).st.trace =
      [Event.route, Event.httpError 404,
        Event.log ("proxy: routing failed: " ++ sampleRequest.URL ++ " " ++
          fmtError (failingSettings.Route sampleRequest).2)] :=
  ⟨rfl, Or.inr (by decide),
    (C8_routing_failure sampleLib 5 failingProxy sampleWriter sampleRequest failingSettings
      (Make sampleNet).settings rfl (Or.inr (by decide))).1,
    (C8_routing_failure sampleLib 5 failingProxy sampleWriter sampleRequest failingSettings
      (Make sampleNet).settings rfl (Or.inr (by decide))).2.1⟩

theorem statusWrites_map_stream (evs : List IOEvent) :
    statusWrites (evs.map Event.stream) = [] := by
  induction evs with
  | nil => rfl
  | cons e evs ih => simpa [statusWrites] using ih

theorem statusWrites_mapRequest (lib : Stdlib) (r : Request) (b : Option Backend) :
    statusWrites (mapRequest lib r b).2 = [] := by
  unfold mapRequest
  split
  · rfl
  · split <;> rfl

theorem any_isBackendOutput_mapRequest (lib : Stdlib) (r : Request) (b : Option Backend) :
    (mapRequest lib r b).2.any Event.isBackendOutput = false := by
  unfold mapRequest
  split
  · rfl
  · split <;> rfl

theorem statusWrites_closeBody (rs : Response) (st : State) :
    statusWrites (closeBody rs st).trace = statusWrites st.trace := by
  unfold closeBody
  split <;> simp [statusWrites_append, statusWrites]

theorem closeBody_ctx (rs : Response) (st : State) : (closeBody rs st).ctx = st.ctx := by
  unfold closeBody
  split <;> rfl

theorem statusWrites_hterr (err : GoError) (st : State) :
    statusWrites (hterr err st).trace = statusWrites st.trace ++ [404] := by
  simp [hterr, statusWrites_append, statusWrites]

theorem any_isBackendOutput_hterr (err : GoError) (st : State) :
    (hterr err st).trace.any Event.isBackendOutput = st.trace.any Event.isBackendOutput := by
  simp [hterr, List.any_append, Event.isBackendOutput]

/-- The status that the success path writes: none if the response phase panics, and
otherwise the one of the response as the response filters left it, once. -/
theorem respond_status (fuel : Nat) (p : proxy) (f : List Filter) (rs : Response) (st : State) :
    (respond fuel p f rs st).exit ≠ Exit.blocked ∧
    (((respond fuel p f rs st).exit = Exit.panicked ∧
        statusWrites (respond fuel p f rs st).st.trace = statusWrites st.trace) ∨
      statusWrites (respond fuel p f rs st).st.trace =
        statusWrites st.trace ++ [((respond fuel p f rs st).st.ctx.res.getD rs).StatusCode]) ∧
    ((respond fuel p f rs st).exit = Exit.returned →
      statusWrites (respond fuel p f rs st).st.trace =
        statusWrites st.trace ++ [((respond fuel p f rs st).st.ctx.res.getD rs).StatusCode]) := by
  obtain ⟨ext, hx, hc⟩ :=
    applyFiltersToResponse_shape f { st with ctx := { st.ctx with res := some rs } }
  have hs := statusWrites_of_isChain ext hc
  unfold respond
  rcases hr : applyFiltersToResponse f { st with ctx := { st.ctx with res := some rs } }
    with ⟨st1, c⟩
  rw [hr] at hx
  simp only at hx
  rcases c with _ | v
  · simp only
    split
    · split
      · simp [statusWrites_append, statusWrites, hx, hs]
      · simp [statusWrites_append, statusWrites, hx, hs, statusWrites_closeBody,
          statusWrites_map_stream, closeBody_ctx]
    · simp [statusWrites_append, statusWrites, hx, hs, statusWrites_closeBody, closeBody_ctx]
  · simp [statusWrites_append, hx, hs]

/-- The handler after a route was found, when the request phase returns: the rest
depends on the mapping and on the round trip. -/
theorem ServeHTTP_routed (lib : Stdlib) (fuel : Nat) (p : proxy) (w : ResponseWriter)
    (r : Request) (s : Settings) (ch : Chan (Option Settings)) (rt : Route)
    (hs : p.settings.recv = some (some s, ch)) (hrt : s.Route r = (some rt, none))
    (hreq : (requestPhase w r rt).2 = Completion.returned) :
    ServeHTTP lib fuel p w r =
      (let p1 : proxy := { p with settings := ch }
       let st1 := afterRequestFilters w r rt
       let mapped := mapRequest lib st1.ctx.req rt.Backend
       let st2 : State := { st1 with trace := st1.trace ++ mapped.2 }
       match mapped.1 with
       | Except.error err => { exit := Exit.returned, p := p1, st := hterr err st2 }
       | Except.ok rr =>
         match p.transport.RoundTrip rr with
         | Except.error err =>
           { exit := Exit.returned, p := p1,
             st := hterr err { st2 with trace := st2.trace ++ [Event.roundTrip rr] } }
         | Except.ok rs =>
           respond fuel p1 rt.Filters rs { st2 with trace := st2.trace ++ [Event.roundTrip rr] }) := by
  unfold afterRequestFilters
  unfold requestPhase at hreq ⊢
  unfold ServeHTTP
  simp only [hs, hrt, List.nil_append]
  rcases hr : applyFiltersToRequest rt.Filters
    { ctx := { w := w, req := r, res := none }, trace := [Event.route] } with ⟨st1, c⟩
  rw [hr] at hreq
  simp only at hreq
  subst hreq
  rfl

/-- The handler after a route was found, when the request phase panics: the panic
leaves `ServeHTTP`, which has written nothing. -/
theorem ServeHTTP_routed_panicked (lib : Stdlib) (fuel : Nat) (p : proxy)
    (w : ResponseWriter) (r : Request) (s : Settings) (ch : Chan (Option Settings))
    (rt : Route) (v : Option String)
    (hs : p.settings.recv = some (some s, ch)) (hrt : s.Route r = (some rt, none))
    (hreq : (requestPhase w r rt).2 = Completion.panicked v) :
    ServeHTTP lib fuel p w r =
      { exit := Exit.panicked, p := { p with settings := ch },
        st := afterRequestFilters w r rt } := by
  unfold afterRequestFilters
  unfold requestPhase at hreq ⊢
  unfold ServeHTTP
  simp only [hs, hrt, List.nil_append]
  rcases hr : applyFiltersToRequest rt.Filters
    { ctx := { w := w, req := r, res := none }, trace := [Event.route] } with ⟨st1, c⟩
  rw [hr] at hreq
  simp only at hreq
  subst hreq
  rfl

theorem afterRequestFilters_quiet (w : ResponseWriter) (r : Request) (rt : Route) :
    statusWrites (afterRequestFilters w r rt).trace = [] ∧
    (afterRequestFilters w r rt).trace.any Event.isBackendOutput = false := by
  obtain ⟨ext, hx, hc⟩ := applyFiltersToRequest_shape rt.Filters
    { ctx := { w := w, req := r, res := none }, trace := [Event.route] }
  unfold afterRequestFilters requestPhase
  rw [hx]
  refine ⟨?_, ?_⟩
  · rw [statusWrites_append, statusWrites_of_isChain ext hc]
    rfl
  · rw [List.any_append, any_isBackendOutput_of_isChain ext hc]
    rfl

/-- The failure response after the request filters: the status 404, once, and
nothing of a backend response. -/
theorem hterr_after_filters (w : ResponseWriter) (r : Request) (rt : Route) (err : GoError)
    (more : List Event) (hs : statusWrites more = [])
    (hb : more.any Event.isBackendOutput = false) :
    statusWrites (hterr err
      { afterRequestFilters w r rt with
        trace := (afterRequestFilters w r rt).trace ++ more }).trace = [404] ∧
    (hterr err
      { afterRequestFilters w r rt with
        trace := (afterRequestFilters w r rt).trace ++ more }).trace.any
          Event.isBackendOutput = false := by
  obtain ⟨h1, h2⟩ := afterRequestFilters_quiet w r rt
  refine ⟨?_, ?_⟩
  · rw [statusWrites_hterr]
    simp [statusWrites_append, h1, hs]
  · rw [any_isBackendOutput_hterr]
    simp [List.any_append, h2, hb]

/-- The handler after a route was found and the request phase returned, in terms of
the state after the request filters and of the outbound request. -/
theorem ServeHTTP_routed_cases (lib : Stdlib) (fuel : Nat) (p : proxy) (w : ResponseWriter)
    (r : Request) (s : Settings) (ch : Chan (Option Settings)) (rt : Route)
    (hs : p.settings.recv = some (some s, ch)) (hrt : s.Route r = (some rt, none))
    (hreq : (requestPhase w r rt).2 = Completion.returned) :
    (∀ err, outboundRequest lib w r rt = Except.error err →
      ServeHTTP lib fuel p w r =
        { exit := Exit.returned, p := { p with settings := ch },
          st := hterr err { afterRequestFilters w r rt with
            trace := (afterRequestFilters w r rt).trace ++
              (mapRequest lib (afterRequestFilters w r rt).ctx.req rt.Backend).2 } }) ∧
    (∀ rr err, outboundRequest lib w r rt = Except.ok rr →
      p.transport.RoundTrip rr = Except.error err →
      ServeHTTP lib fuel p w r =
        { exit := Exit.returned, p := { p with settings := ch },
          st := hterr err { afterRequestFilters w r rt with
            trace := (afterRequestFilters w r rt).trace ++
              ((mapRequest lib (afterRequestFilters w r rt).ctx.req rt.Backend).2 ++
                [Event.roundTrip rr]) } }) ∧
    (∀ rr rs, outboundRequest lib w r rt = Except.ok rr →
      p.transport.RoundTrip rr = Except.ok rs →
      ServeHTTP lib fuel p w r =
        respond fuel { p with settings := ch } rt.Filters rs
          { afterRequestFilters w r rt with
            trace := (afterRequestFilters w r rt).trace ++
              ((mapRequest lib (afterRequestFilters w r rt).ctx.req rt.Backend).2 ++
                [Event.roundTrip rr]) }) := by
  have h := ServeHTTP_routed lib fuel p w r s ch rt hs hrt hreq
  refine ⟨?_, ?_, ?_⟩
  · intro err ho
    unfold outboundRequest at ho
    rw [h]
    simp only [ho]
  · intro rr err ho ht
    unfold outboundRequest at ho
    rw [h]
    simp only [ho, ht, List.append_assoc]
  · intro rr rs ho ht
    unfold outboundRequest at ho
    rw [h]
    simp only [ho, ht, List.append_assoc]

theorem statusWrites_roundTrip (lib : Stdlib) (r : Request) (b : Option Backend)
    (rr : Request) :
    statusWrites ((mapRequest lib r b).2 ++ [Event.roundTrip rr]) = [] ∧
    ((mapRequest lib r b).2 ++ [Event.roundTrip rr]).any Event.isBackendOutput = false := by
  refine ⟨?_, ?_⟩
  · rw [statusWrites_append, statusWrites_mapRequest]
    rfl
  · rw [List.any_append, any_isBackendOutput_mapRequest]
    rfl

/-- The handler when the receive blocks. -/
theorem ServeHTTP_blocked (lib : Stdlib) (fuel : Nat) (p : proxy) (w : ResponseWriter)
    (r : Request) (hs : p.settings.recv = none) :
    ServeHTTP lib fuel p w r =
      { exit := Exit.blocked, p := p,
        st := { ctx := { w := w, req := r, res := none }, trace := [] } } := by
  unfold ServeHTTP
  simp only [hs]

/-- C9: on every path of `ServeHTTP` that completes the proxy writes exactly one
response status, and on no path more than one; it writes none while it waits for
settings. On each failure path (a nil settings snapshot, a routing failure, and
after a request phase that returned a missing backend or another mapping error or a
failed round trip) the handler returns and the status is the 404 of `hterr`, with
no header and no body byte of a backend response written by the proxy before or
after it. On the success path, if the handler returns, the status is the one of the
backend response, as the response filters left it, written once by `WriteHeader`,
whatever `copyStream` returns afterwards; on that path the handler writes this
status or, if the response phase panics, none. -/
theorem C9_one_response_status (lib : Stdlib) (fuel : Nat) (p : proxy) (w : ResponseWriter)
    (r : Request) :
    (∀ ch, p.settings.recv = some (none, ch) →
      (ServeHTTP lib fuel p w r).exit = Exit.returned ∧
      statusWrites (ServeHTTP lib fuel p w r).st.trace = [404] ∧
      (ServeHTTP lib fuel p w r).st.trace.any Event.isBackendOutput = false) ∧
    (∀ s ch, p.settings.recv = some (some s, ch) →
      ((s.Route r).1 = none ∨ (s.Route r).2 ≠ none) →
      (ServeHTTP lib fuel p w r).exit = Exit.returned ∧
      statusWrites (ServeHTTP lib fuel p w r).st.trace = [404] ∧
      (ServeHTTP lib fuel p w r).st.trace.any Event.isBackendOutput = false) ∧
    (∀ s ch rt err, p.settings.recv = some (some s, ch) → s.Route r = (some rt, none) →
      (requestPhase w r rt).2 = Completion.returned →
      outboundRequest lib w r rt = Except.error err →
      (ServeHTTP lib fuel p w r).exit = Exit.returned ∧
      statusWrites (ServeHTTP lib fuel p w r).st.trace = [404] ∧
      (ServeHTTP lib fuel p w r).st.trace.any Event.isBackendOutput = false) ∧
    (∀ s ch rt rr err, p.settings.recv = some (some s, ch) → s.Route r = (some rt, none) →
      (requestPhase w r rt).2 = Completion.returned →
      outboundRequest lib w r rt = Except.ok rr →
      p.transport.RoundTrip rr = Except.error err →
      (ServeHTTP lib fuel p w r).exit = Exit.returned ∧
      statusWrites (ServeHTTP lib fuel p w r).st.trace = [404] ∧
      (ServeHTTP lib fuel p w r).st.trace.any Event.isBackendOutput = false) ∧
    (∀ s ch rt rr rs, p.settings.recv = some (some s, ch) → s.Route r = (some rt, none) →
      (requestPhase w r rt).2 = Completion.returned →
      outboundRequest lib w r rt = Except.ok rr →
      p.transport.RoundTrip rr = Except.ok rs →
      (ServeHTTP lib fuel p w r).exit ≠ Exit.blocked ∧
      ((ServeHTTP lib fuel p w r).exit = Exit.returned →
        statusWrites (ServeHTTP lib fuel p w r).st.trace =
          [((ServeHTTP lib fuel p w r).st.ctx.res.getD rs).StatusCode]) ∧
      (statusWrites (ServeHTTP lib fuel p w r).st.trace =
          [((ServeHTTP lib fuel p w r).st.ctx.res.getD rs).StatusCode] ∨
        ((ServeHTTP lib fuel p w r).exit = Exit.panicked ∧
          statusWrites (ServeHTTP lib fuel p w r).st.trace = []))) ∧
    ((ServeHTTP lib fuel p w r).exit = Exit.blocked →
      statusWrites (ServeHTTP lib fuel p w r).st.trace = []) ∧
    ((ServeHTTP lib fuel p w r).exit = Exit.returned →
      (statusWrites (ServeHTTP lib fuel p w r).st.trace).length = 1) ∧
    (statusWrites (ServeHTTP lib fuel p w r).st.trace).length ≤ 1 := by
  have c1 : ∀ ch, p.settings.recv = some (none, ch) →
      (ServeHTTP lib fuel p w r).exit = Exit.returned ∧
      statusWrites (ServeHTTP lib fuel p w r).st.trace = [404] ∧
      (ServeHTTP lib fuel p w r).st.trace.any Event.isBackendOutput = false := by
    intro ch hs
    rw [ServeHTTP_nil_settings lib fuel p w r ch hs]
    exact ⟨rfl, rfl, rfl⟩
  have c2 : ∀ s ch, p.settings.recv = some (some s, ch) →
      ((s.Route r).1 = none ∨ (s.Route r).2 ≠ none) →
      (ServeHTTP lib fuel p w r).exit = Exit.returned ∧
      statusWrites (ServeHTTP lib fuel p w r).st.trace = [404] ∧
      (ServeHTTP lib fuel p w r).st.trace.any Event.isBackendOutput = false := by
    intro s ch hs hrt
    rw [ServeHTTP_unrouted lib fuel p w r s ch hs hrt]
    exact ⟨rfl, rfl, rfl⟩
  have c3 : ∀ s ch rt err, p.settings.recv = some (some s, ch) → s.Route r = (some rt, none) →
      (requestPhase w r rt).2 = Completion.returned →
      outboundRequest lib w r rt = Except.error err →
      (ServeHTTP lib fuel p w r).exit = Exit.returned ∧
      statusWrites (ServeHTTP lib fuel p w r).st.trace = [404] ∧
      (ServeHTTP lib fuel p w r).st.trace.any Event.isBackendOutput = false := by
    intro s ch rt err hs hrt hreq ho
    rw [(ServeHTTP_routed_cases lib fuel p w r s ch rt hs hrt hreq).1 err ho]
    exact ⟨rfl, hterr_after_filters w r rt err _ (statusWrites_mapRequest _ _ _)
      (any_isBackendOutput_mapRequest _ _ _)⟩
  have c4 : ∀ s ch rt rr err, p.settings.recv = some (some s, ch) →
      s.Route r = (some rt, none) → (requestPhase w r rt).2 = Completion.returned →
      outboundRequest lib w r rt = Except.ok rr →
      p.transport.RoundTrip rr = Except.error err →
      (ServeHTTP lib fuel p w r).exit = Exit.returned ∧
      statusWrites (ServeHTTP lib fuel p w r).st.trace = [404] ∧
      (ServeHTTP lib fuel p w r).st.trace.any Event.isBackendOutput = false := by
    intro s ch rt rr err hs hrt hreq ho ht
    rw [(ServeHTTP_routed_cases lib fuel p w r s ch rt hs hrt hreq).2.1 rr err ho ht]
    exact ⟨rfl, hterr_after_filters w r rt err _ (statusWrites_roundTrip _ _ _ _).1
      (statusWrites_roundTrip _ _ _ _).2⟩
  have c5 : ∀ s ch rt rr rs, p.settings.recv = some (some s, ch) →
      s.Route r = (some rt, none) → (requestPhase w r rt).2 = Completion.returned →
      outboundRequest lib w r rt = Except.ok rr →
      p.transport.RoundTrip rr = Except.ok rs →
      (ServeHTTP lib fuel p w r).exit ≠ Exit.blocked ∧
      ((ServeHTTP lib fuel p w r).exit = Exit.returned →
        statusWrites (ServeHTTP lib fuel p w r).st.trace =
          [((ServeHTTP lib fuel p w r).st.ctx.res.getD rs).StatusCode]) ∧
      (statusWrites (ServeHTTP lib fuel p w r).st.trace =
          [((ServeHTTP lib fuel p w r).st.ctx.res.getD rs).StatusCode] ∨
        ((ServeHTTP lib fuel p w r).exit = Exit.panicked ∧
          statusWrites (ServeHTTP lib fuel p w r).st.trace = [])) := by
    intro s ch rt rr rs hs hrt hreq ho ht
    rw [(ServeHTTP_routed_cases lib fuel p w r s ch rt hs hrt hreq).2.2 rr rs ho ht]
    obtain ⟨h1, h2, h3⟩ := respond_status fuel { p with settings := ch } rt.Filters rs
      { afterRequestFilters w r rt with
        trace := (afterRequestFilters w r rt).trace ++
          ((mapRequest lib (afterRequestFilters w r rt).ctx.req rt.Backend).2 ++
            [Event.roundTrip rr]) }
    have hq : statusWrites ((afterRequestFilters w r rt).trace ++
        ((mapRequest lib (afterRequestFilters w r rt).ctx.req rt.Backend).2 ++
          [Event.roundTrip rr])) = [] := by
      rw [statusWrites_append, (afterRequestFilters_quiet w r rt).1,
        (statusWrites_roundTrip _ _ _ _).1]
      rfl
    simp only [hq, List.nil_append] at h2 h3
    refine ⟨h1, h3, ?_⟩
    rcases h2 with h2 | h2
    · exact Or.inr h2
    · exact Or.inl h2
  have hall : ((ServeHTTP lib fuel p w r).exit = Exit.blocked ∧
        statusWrites (ServeHTTP lib fuel p w r).st.trace = []) ∨
      ((ServeHTTP lib fuel p w r).exit = Exit.panicked ∧
        statusWrites (ServeHTTP lib fuel p w r).st.trace = []) ∨
      ((ServeHTTP lib fuel p w r).exit ≠ Exit.blocked ∧
        (statusWrites (ServeHTTP lib fuel p w r).st.trace).length = 1) := by
    rcases hs : p.settings.recv with _ | ⟨s, ch⟩
    · left
      rw [ServeHTTP_blocked lib fuel p w r hs]
      exact ⟨rfl, rfl⟩
    · right
      rcases s with _ | s
      · obtain ⟨h1, h2, -⟩ := c1 ch hs
        rw [h1, h2]
        exact Or.inr ⟨by decide, rfl⟩
      · by_cases hrt : (s.Route r).1 = none ∨ (s.Route r).2 ≠ none
        · obtain ⟨h1, h2, -⟩ := c2 s ch hs hrt
          rw [h1, h2]
          exact Or.inr ⟨by decide, rfl⟩
        · obtain ⟨rt, hrt1⟩ : ∃ rt, s.Route r = (some rt, none) := by
            rcases hr : s.Route r with ⟨rt, err⟩
            rw [hr] at hrt
            simp only [not_or, not_not] at hrt
            rcases rt with _ | rt
            · exact absurd rfl hrt.1
            · exact ⟨rt, by rw [hrt.2]⟩
          rcases hreq : (requestPhase w r rt).2 with _ | v
          · rcases ho : outboundRequest lib w r rt with err | rr
            · obtain ⟨h1, h2, -⟩ := c3 s ch rt err hs hrt1 hreq ho
              rw [h1, h2]
              exact Or.inr ⟨by decide, rfl⟩
            · rcases ht : p.transport.RoundTrip rr with err | rs
              · obtain ⟨h1, h2, -⟩ := c4 s ch rt rr err hs hrt1 hreq ho ht
                rw [h1, h2]
                exact Or.inr ⟨by decide, rfl⟩
              · obtain ⟨h1, -, h3⟩ := c5 s ch rt rr rs hs hrt1 hreq ho ht
                rcases h3 with h3 | h3
                · exact Or.inr ⟨h1, by rw [h3]; rfl⟩
                · exact Or.inl h3
          · left
            rw [ServeHTTP_routed_panicked lib fuel p w r s ch rt v hs hrt1 hreq]
            exact ⟨rfl, (afterRequestFilters_quiet w r rt).1⟩
  refine ⟨c1, c2, c3, c4, c5, ?_, ?_, ?_⟩
  · intro hb
    rcases hall with h | h | h
    · exact h.2
    · exact h.2
    · exact absurd hb h.1
  · intro hb
    rcases hall with h | h | h
    · rw [h.1] at hb
      exact absurd hb (by decide)
    · rw [h.1] at hb
      exact absurd hb (by decide)
    · exact h.2
  · rcases hall with h | h | h
    · rw [h.2]
      exact Nat.zero_le _
    · rw [h.2]
      exact Nat.zero_le _
    · exact Nat.le_of_eq h.2

/-- Witness of C9: a request that the sample backend answers with status 200, and
one whose backend refuses the connection. -/
theorem C9_witness :
    (requestPhase sampleWriter sampleRequest sampleRoute).2 = Completion.returned ∧
    (outboundRequest sampleLib sampleWriter sampleRequest sampleRoute).toOption.isSome = true ∧
    (ServeHTTP sampleLib 5 sampleProxy sampleWriter sampleRequest).exit = Exit.returned ∧
    statusWrites (ServeHTTP sampleLib 5 sampleProxy sampleWriter sampleRequest).st.trace =
      [200] ∧
    (ServeHTTP sampleLib 5 refusedProxy sampleWriter sampleRequest).exit = Exit.returned ∧
    statusWrites (ServeHTTP sampleLib 5 refusedProxy sampleWriter sampleRequest).st.trace =
      [404] ∧
    (ServeHTTP sampleLib 5 refusedProxy sampleWriter sampleRequest).st.trace.any
      Event.isBackendOutput = false :=
  ⟨by decide, by decide, by decide,
    ((C9_one_response_status sampleLib 5 sampleProxy sampleWriter sampleRequest).2.2.2.2.1
      sampleSettings (Make sampleNet).settings sampleRoute
      { Method := "GET", URL := "http://backend.example/bar",
        Header := cloneHeader (afterRequestFilters sampleWriter sampleRequest sampleRoute).ctx.req.Header,
        Body := sampleRequest.Body }
      { StatusCode := 200, Header := [("Content-Type", ["text/plain"])],
        Body := sampleBody, closeErr := none } rfl rfl rfl rfl rfl).2.1 (by decide),
    (C9_one_response_status sampleLib 5 refusedProxy sampleWriter sampleRequest).2.2.2.1
      sampleSettings (Make refusingNet).settings sampleRoute
      { Method := "GET", URL := "http://backend.example/bar",
        Header := cloneHeader (afterRequestFilters sampleWriter sampleRequest sampleRoute).ctx.req.Header,
        Body := sampleRequest.Body }
      (GoError.err "connection refused") rfl rfl rfl rfl rfl⟩

end Proxy
